import Mathlib

/-!
# The DNS middleware pipeline of `dns/middleware.go`

A shallow embedding of the handler chain built by `NewHandler`: the units
`withHosts`, `withMapping`, `withFakeIP`, the terminal `withResolver`, and
`compose`.

Conventions of the embedding.

* A Go `handler` mutates a `*context.DNSContext`, writes to the reverse-mapping
  cache, and calls collaborators (fake-IP pool, upstream resolver).  Here a
  handler is a function from a `World` and a request to a `Result` and the
  next `World`.  The world holds the request context, the log of every
  `SetType` and `SetWithExpire` call, the wall clock, and the private state `σ`
  of the collaborators.
* A Go run-time panic (indexing `r.Question[0]` on an empty slice, a nil
  dereference) is the result `Result.panic`.
* Messages are values: `r.Copy()` is the identity, and a handler cannot change
  the request its caller holds.
* Machine integers (`uint16` types and classes, `uint32` TTLs, bytes) are `Nat`.
-/

namespace Dns

/-! ## `net/netip` and `strings` -/

/-- A `netip.Addr`: the zero (invalid) address, an IPv4 address of four bytes,
or an IPv6 address of sixteen bytes with its zone. -/
inductive Addr where
  | zero : Addr
  | ip4 (a b c d : Nat) : Addr
  | ip6 (bytes : List Nat) (zone : String) : Addr
deriving DecidableEq, Repr

/-- The method `netip.Addr.Is4`: true for an IPv4 address only. -/
def Addr.Is4 : Addr → Bool
  | Addr.ip4 _ _ _ _ => true
  | _ => false

/-- The method `netip.Addr.AsSlice`: nil for the zero address, 4 bytes for IPv4,
16 bytes for IPv6. -/
def Addr.AsSlice : Addr → List Nat
  | Addr.zero => []
  | Addr.ip4 a b c d => [a, b, c, d]
  | Addr.ip6 bytes _ => bytes

/-- The method `netip.Addr.As16`: the 16-byte form.  An IPv4 address becomes
the IPv4-mapped IPv6 address, the zone of an IPv6 address is dropped, the zero
address gives sixteen zero bytes. -/
def Addr.As16 : Addr → List Nat
  | Addr.zero => List.replicate 16 0
  | Addr.ip4 a b c d => List.replicate 10 0 ++ [255, 255, a, b, c, d]
  | Addr.ip6 bytes _ => bytes

/-- The function `strings.TrimRight(s, cutset)`: `s` without its trailing
characters that occur in `cutset`. -/
def TrimRight (s cutset : String) : String :=
  String.mk (s.data.rdropWhile (fun c => cutset.data.contains c))

/-! ## `github.com/miekg/dns`: the message model -/

abbrev TypeA : Nat := 1
abbrev TypeAAAA : Nat := 28
abbrev TypeSVCB : Nat := 64
abbrev TypeHTTPS : Nat := 65
abbrev ClassINET : Nat := 1
abbrev RcodeSuccess : Nat := 0
abbrev OpcodeQuery : Nat := 0

/-- The struct `dns.Question`. -/
structure Question where
  Name : String
  Qtype : Nat
  Qclass : Nat
deriving DecidableEq, Repr

/-- The struct `dns.RR_Header` (without the wire-only `Rdlength`). -/
structure RR_Header where
  Name : String
  Rrtype : Nat
  Class : Nat
  Ttl : Nat
deriving DecidableEq, Repr

/-- A resource record `dns.RR`: `*dns.A`, `*dns.AAAA`, or a record of any
other type, whose payload this pipeline never reads. -/
inductive RR where
  | A (Hdr : RR_Header) (A : List Nat) : RR
  | AAAA (Hdr : RR_Header) (AAAA : List Nat) : RR
  | other (Hdr : RR_Header) (rdata : List Nat) : RR
deriving DecidableEq, Repr

/-- The method `RR.Header()`. -/
def RR.Header : RR → RR_Header
  | RR.A h _ => h
  | RR.AAAA h _ => h
  | RR.other h _ => h

/-- The struct `dns.Msg` with its embedded `MsgHdr`. -/
structure Msg where
  Id : Nat := 0
  Response : Bool := false
  Opcode : Nat := 0
  Authoritative : Bool := false
  Truncated : Bool := false
  RecursionDesired : Bool := false
  RecursionAvailable : Bool := false
  Zero : Bool := false
  AuthenticatedData : Bool := false
  CheckingDisabled : Bool := false
  Rcode : Nat := 0
  Compress : Bool := false
  Question : List Question := []
  Answer : List RR := []
  Ns : List RR := []
  Extra : List RR := []
deriving DecidableEq, Repr

/-- The method `(*Msg).Copy`: a deep copy, the same value. -/
def Msg.Copy (dns : Msg) : Msg := dns

/-- The method `(*Msg).SetReply` of miekg/dns: turns `dns` into a reply to
`request`. -/
def Msg.SetReply (dns request : Msg) : Msg :=
  let dns := { dns with Id := request.Id, Response := true, Opcode := request.Opcode }
  let dns :=
    if dns.Opcode = OpcodeQuery then
      { dns with RecursionDesired := request.RecursionDesired,
                 CheckingDisabled := request.CheckingDisabled }
    else dns
  let dns := { dns with Rcode := RcodeSuccess }
  match request.Question with
  | [] => dns
  | q :: _ => { dns with Question := [q] }

/-- The method `(*Msg).SetRcode` of miekg/dns: `SetReply`, then the result
code. -/
def Msg.SetRcode (dns request : Msg) (rcode : Nat) : Msg :=
  { dns.SetReply request with Rcode := rcode }

/-! ## Collaborators -/

/-- A point in time (`time.Time`) and a `time.Duration`, in nanoseconds. -/
abbrev Time := Nat

/-- The constant `time.Second`. -/
abbrev Second : Nat := 1000000000

/-- A Go `error` value. -/
abbrev Error := String

/-- The static host table `*trie.DomainTrie[netip.Addr]`, by its one method:
`Search(name)` gives the node of the matching entry (`some` of its `Data()`)
or nil (`none`). -/
structure DomainTrie where
  Search : String → Option Addr

/-- The fake-IP pool `*fakeip.Pool`, by its two methods.  `Lookup` may
allocate, so it also transforms the collaborators' state. -/
structure Pool (σ : Type) where
  ShouldSkipped : String → Bool
  Lookup : String → σ → Addr × σ

/-- A non-nil `*cache.LruCache[netip.Addr, string]`, named by its address. -/
abbrev LruCache := Nat

/-- One call `cache.SetWithExpire(key, value, expires)`. -/
structure CacheWrite where
  cache : LruCache
  key : Addr
  value : String
  expires : Time
deriving DecidableEq, Repr

/-- Modelled from the spec: the constants `context.DNSTypeRaw`,
`context.DNSTypeHost` and `context.DNSTypeFakeIP` (package `context` is not
among the sources): the resolution kind, an enumeration of Raw, Host, FakeIP. -/
inductive DNSType where
  | DNSTypeRaw : DNSType
  | DNSTypeHost : DNSType
  | DNSTypeFakeIP : DNSType
deriving DecidableEq, Repr

/-- Modelled from the spec: the request context `context.DNSContext` (package
`context` is not among the sources), as far as the pipeline uses it: the
mutable resolution kind. -/
structure DNSContext where
  tp : DNSType
deriving DecidableEq, Repr

/-- Modelled from the spec: the constants `C.DNSNormal`, `C.DNSFakeIP` (package
`constant` is not among the sources) and the one other enhanced mode, which
returns real addresses and records the reverse mapping. -/
inductive DNSMode where
  | DNSNormal : DNSMode
  | DNSFakeIP : DNSMode
  | DNSMapping : DNSMode
deriving DecidableEq, Repr

/-- Everything a handler can read or change besides its request. -/
structure World (σ : Type) where
  /-- the request's `*context.DNSContext` -/
  ctx : DNSContext
  /-- every `ctx.SetType` call so far, oldest first -/
  typeWrites : List DNSType
  /-- every `SetWithExpire` call so far, oldest first -/
  cacheWrites : List CacheWrite
  /-- the wall clock read by `time.Now()` -/
  now : Time
  /-- the state of the fake-IP pool and of the upstream transport -/
  ext : σ

/-- The method `ctx.SetType(tp)`. -/
def World.SetType {σ : Type} (w : World σ) (tp : DNSType) : World σ :=
  { w with ctx := { w.ctx with tp := tp }, typeWrites := w.typeWrites ++ [tp] }

/-- The method `mapping.SetWithExpire(key, value, expires)` on a non-nil cache. -/
def World.SetWithExpire {σ : Type} (w : World σ) (mapping : LruCache) (key : Addr)
    (value : String) (expires : Time) : World σ :=
  { w with cacheWrites := w.cacheWrites ++ [CacheWrite.mk mapping key value expires] }

/-- What a handler call produces: `return msg, err` with either of them
possibly nil, or a run-time panic. -/
inductive Result where
  | ret (msg : Option Msg) (err : Option Error) : Result
  | panic : Result
deriving DecidableEq, Repr

/-- The type `handler`: `func(ctx *context.DNSContext, r *D.Msg) (*D.Msg, error)`. -/
abbrev handler (σ : Type) := World σ → Msg → Result × World σ

/-- The type `middleware`: `func(next handler) handler`. -/
abbrev middleware (σ : Type) := handler σ → handler σ

/-- The struct `Resolver`, by what the pipeline reads of it: the `ipv6` flag,
the host table (nil when none is configured) and the method
`ExchangeContext`, which takes time and changes the transport's state. -/
structure Resolver (σ : Type) where
  ipv6 : Bool
  hosts : Option DomainTrie
  ExchangeContext : Msg → Time × σ → (Option Msg × Option Error) × (Time × σ)

/-- The struct `ResolverEnhancer`, by what the pipeline reads of it. -/
structure ResolverEnhancer (σ : Type) where
  mode : DNSMode
  fakePool : Pool σ
  mapping : Option LruCache

/-! ## Helpers of `dns/util.go` and `common/nnip` -/

/-- Modelled from the spec: `isIPRequest` (dns/util.go is not among the
sources), the classification helper of section 4.1: true iff the type of the
question is A or AAAA. -/
def isIPRequest (q : Question) : Bool :=
  q.Qtype == TypeA || q.Qtype == TypeAAAA

/-- Modelled from the spec: `handleMsgWithEmptyAnswer` (dns/util.go is not
among the sources), the synthesis helper `emptyAnswer` of section 4.1: a
response to the request with the same question, zero answers, result code
success, authoritative and recursion-available set. -/
def handleMsgWithEmptyAnswer (r : Msg) : Msg :=
  let msg : Msg := {}
  let msg := { msg with Answer := [] }
  let msg := msg.SetRcode r RcodeSuccess
  { msg with Authoritative := true, RecursionAvailable := true }

/-- The assignment `rr.Header().Ttl = ttl`. -/
def RR.setTtl (ttl : Nat) : RR → RR
  | RR.A h a => RR.A { h with Ttl := ttl } a
  | RR.AAAA h a => RR.AAAA { h with Ttl := ttl } a
  | RR.other h d => RR.other { h with Ttl := ttl } d

/-- Modelled from the spec: `setMsgTTL` (dns/util.go is not among the sources),
the synthesis helper `overrideTTL` of section 4.1: rewrites the TTL of every
answer record to the given value. -/
def setMsgTTL (msg : Msg) (ttl : Nat) : Msg :=
  { msg with Answer := msg.Answer.map (RR.setTtl ttl) }

/-- Modelled from the spec: `nnip.IpToAddr` (common/nnip is not among the
sources), which extracts the address of an A or AAAA record from its byte
slice: four bytes are an IPv4 address, sixteen bytes an IPv6 address, anything
else the zero address. -/
def IpToAddr (slice : List Nat) : Addr :=
  match slice with
  | [a, b, c, d] => Addr.ip4 a b c d
  | _ => if slice.length = 16 then Addr.ip6 slice "" else Addr.zero

/-! ## The handlers of `dns/middleware.go` -/

section Handlers

variable {σ : Type}

/-- The middleware `withHosts(hosts, mapping)`.  `mapping` is `none` for a nil
cache pointer. -/
def withHosts (hosts : DomainTrie) (mapping : Option LruCache) : middleware σ :=
  fun next w r =>
    match r.Question with
    | [] => (Result.panic, w)
    | q :: _ =>
      if !isIPRequest q then next w r
      else
        let host := TrimRight q.Name "."
        match hosts.Search host with
        | none => next w r
        | some ip =>
          let msg := r.Copy
          let answer : Option (List RR) :=
            if ip.Is4 && q.Qtype == TypeA then
              some [RR.A { Name := q.Name, Rrtype := TypeA, Class := ClassINET, Ttl := 10 }
                ip.AsSlice]
            else if q.Qtype == TypeAAAA then
              some [RR.AAAA { Name := q.Name, Rrtype := TypeAAAA, Class := ClassINET, Ttl := 10 }
                ip.As16]
            else none
          match answer with
          | none => next w r
          | some rrs =>
            let msg := { msg with Answer := rrs }
            let w :=
              match mapping with
              | some c => w.SetWithExpire c ip host (w.now + Second * 10)
              | none => w
            let w := w.SetType DNSType.DNSTypeHost
            let msg := msg.SetRcode r RcodeSuccess
            let msg := { msg with Authoritative := true, RecursionAvailable := true }
            (Result.ret (some msg) none, w)

/-- The type switch in the loop of `withMapping`: the address and TTL of an A
or AAAA record, `none` for any other record (`continue`). -/
def answerAddr : RR → Option (Addr × Nat)
  | RR.A h a => some (IpToAddr a, h.Ttl)
  | RR.AAAA h a => some (IpToAddr a, h.Ttl)
  | RR.other _ _ => none

/-- The loop `for _, ans := range msg.Answer` of `withMapping`.  `none` is the
nil dereference of calling `SetWithExpire` on a nil cache. -/
def mappingLoop (mapping : Option LruCache) (host : String) :
    List RR → World σ → Option (World σ)
  | [], w => some w
  | ans :: rest, w =>
    match answerAddr ans with
    | none => mappingLoop mapping host rest w
    | some (ip, ttl) =>
      match mapping with
      | none => none
      | some c => mappingLoop mapping host rest (w.SetWithExpire c ip host (w.now + Second * ttl))

/-- The middleware `withMapping(mapping)`. -/
def withMapping (mapping : Option LruCache) : middleware σ :=
  fun next w r =>
    match r.Question with
    | [] => (Result.panic, w)
    | q :: _ =>
      if !isIPRequest q then next w r
      else
        match next w r with
        | (Result.panic, w) => (Result.panic, w)
        | (Result.ret _ (some err), w) => (Result.ret none (some err), w)
        | (Result.ret none none, w) => (Result.panic, w)
        | (Result.ret (some msg) none, w) =>
          let host := TrimRight q.Name "."
          match mappingLoop mapping host msg.Answer w with
          | none => (Result.panic, w)
          | some w => (Result.ret (some msg) none, w)

/-- The middleware `withFakeIP(fakePool)`.  The constant `dnsDefaultTTL`
(dns/util.go is not among the sources) is a parameter. -/
def withFakeIP (dnsDefaultTTL : Nat) (fakePool : Pool σ) : middleware σ :=
  fun next w r =>
    match r.Question with
    | [] => (Result.panic, w)
    | q :: _ =>
      let host := TrimRight q.Name "."
      if fakePool.ShouldSkipped host then next w r
      else if q.Qtype = TypeAAAA ∨ q.Qtype = TypeSVCB ∨ q.Qtype = TypeHTTPS then
        (Result.ret (some (handleMsgWithEmptyAnswer r)) none, w)
      else if q.Qtype ≠ TypeA then next w r
      else
        let hdr : RR_Header :=
          { Name := q.Name, Rrtype := TypeA, Class := ClassINET, Ttl := dnsDefaultTTL }
        let (ip, ext) := fakePool.Lookup host w.ext
        let w := { w with ext := ext }
        let rr := RR.A hdr ip.AsSlice
        let msg := r.Copy
        let msg := { msg with Answer := [rr] }
        let w := w.SetType DNSType.DNSTypeFakeIP
        let msg := setMsgTTL msg 1
        let msg := msg.SetRcode r RcodeSuccess
        let msg := { msg with Authoritative := true, RecursionAvailable := true }
        (Result.ret (some msg) none, w)

/-- The terminal handler `withResolver(resolver)` (its log lines left out). -/
def withResolver (resolver : Resolver σ) : handler σ :=
  fun w r =>
    let w := w.SetType DNSType.DNSTypeRaw
    match r.Question with
    | [] => (Result.panic, w)
    | q :: _ =>
      if !resolver.ipv6 && q.Qtype == TypeAAAA then
        (Result.ret (some (handleMsgWithEmptyAnswer r)) none, w)
      else
        match resolver.ExchangeContext r (w.now, w.ext) with
        | ((msg, some err), (now, ext)) =>
          (Result.ret msg (some err), { w with now := now, ext := ext })
        | ((none, none), (now, ext)) =>
          (Result.panic, { w with now := now, ext := ext })
        | ((some msg, none), (now, ext)) =>
          let msg := msg.SetRcode r msg.Rcode
          let msg := { msg with Authoritative := true }
          (Result.ret (some msg) none, { w with now := now, ext := ext })

/-- The loop `for i := length - 1; i >= 0; i--` of `compose`, entered with
`n = i + 1`: it applies `middlewares[i]` to `h` and goes on with `i - 1`. -/
def composeLoop (middlewares : List (middleware σ)) :
    (n : Nat) → n ≤ middlewares.length → handler σ → handler σ
  | 0, _, h => h
  | i + 1, hi, h =>
    composeLoop middlewares i (Nat.le_of_succ_le hi) ((middlewares.get ⟨i, hi⟩) h)

/-- The function `compose(middlewares, endpoint)`. -/
def compose (middlewares : List (middleware σ)) (endpoint : handler σ) : handler σ :=
  composeLoop middlewares middlewares.length (Nat.le_refl _) endpoint

/-- The function `NewHandler(resolver, mapper)`. -/
def NewHandler (dnsDefaultTTL : Nat) (resolver : Resolver σ) (mapper : ResolverEnhancer σ) :
    handler σ :=
  let middlewares : List (middleware σ) := []
  let middlewares :=
    match resolver.hosts with
    | some hosts => middlewares ++ [withHosts hosts mapper.mapping]
    | none => middlewares
  let middlewares :=
    if mapper.mode = DNSMode.DNSFakeIP then
      middlewares ++ [withFakeIP dnsDefaultTTL mapper.fakePool]
    else middlewares
  let middlewares :=
    if mapper.mode ≠ DNSMode.DNSNormal then middlewares ++ [withMapping mapper.mapping]
    else middlewares
  compose middlewares (withResolver resolver)

end Handlers

/-! ## The reverse-mapping cache, as sections 3 and 4.5 describe it -/

/-- The cache writes section 4.5 asks of the mapping middleware for the answer
records `answers` read at time `now`: in answer order, one write per record of
type A or AAAA, with key the address of the record, value the stripped name
`host` and expiry `now` plus the TTL of the record in seconds; no write for a
record of any other type. -/
def mappingWrites (c : LruCache) (host : String) (now : Time) (answers : List RR) :
    List CacheWrite :=
  answers.filterMap fun rr =>
    match rr with
    | RR.A h a =>
      some { cache := c, key := IpToAddr a, value := host, expires := now + h.Ttl * Second }
    | RR.AAAA h a =>
      some { cache := c, key := IpToAddr a, value := host, expires := now + h.Ttl * Second }
    | RR.other _ _ => none

/-- Modelled from the spec: the entry the reverse-mapping cache `c`
(common/cache is not among the sources) holds for `key` after the writes of
`log`: a write for the same address overwrites the previous one, so it is the
last write to `c` with that key.  Expiry on read and eviction, which are the
business of the cache, are left out. -/
def cacheEntry (log : List CacheWrite) (c : LruCache) (key : Addr) : Option CacheWrite :=
  log.reverse.find? fun e => decide (e.cache = c ∧ e.key = key)

/-! ## Example inputs -/

/-- A host table with the one entry `router.lan -> 192.168.1.1`. -/
def exampleHosts : DomainTrie :=
  ⟨fun name => if name = "router.lan" then some (Addr.ip4 192 168 1 1) else none⟩

/-- A host table with the one entry `router.lan -> ::1`, an IPv6 address. -/
def exampleHosts6 : DomainTrie :=
  ⟨fun name =>
    if name = "router.lan" then some (Addr.ip6 (List.replicate 15 0 ++ [1]) "") else none⟩

/-- A world at clock 5 with nothing logged; the collaborator state counts the
lookups made in the pool so far. -/
def exampleWorld : World Nat :=
  { ctx := { tp := DNSType.DNSTypeRaw }, typeWrites := [], cacheWrites := [], now := 5, ext := 0 }

/-- A next handler that fails with an error of its own and changes the clock. -/
def exampleNext : handler Nat :=
  fun w _ => (Result.ret none (some "next was called"), { w with now := w.now + 1 })

/-- A request with the one question `name type IN`. -/
def exampleQuery (name : String) (qtype : Nat) : Msg :=
  { Id := 7, RecursionDesired := true, Question := [{ Name := name, Qtype := qtype, Qclass := ClassINET }] }

/-- A pool that skips `skipped.lan` and gives `198.18.0.2` to `example.com`
(and `198.18.0.3` to every other name), counting its lookups in the state. -/
def examplePool : Pool Nat :=
  { ShouldSkipped := fun name => name = "skipped.lan",
    Lookup := fun name n =>
      (if name = "example.com" then Addr.ip4 198 18 0 2 else Addr.ip4 198 18 0 3, n + 1) }

/-- An upstream that answers every request with one A record `10.0.0.1` of TTL
300, not authoritative, after 2 nanoseconds. -/
def exampleExchange : Msg → Time × Nat → (Option Msg × Option Error) × (Time × Nat) :=
  fun r s =>
    ((some {
        Id := r.Id, Response := true, Question := r.Question,
        Answer := [RR.A { Name := "upstream.", Rrtype := TypeA, Class := ClassINET, Ttl := 300 }
          [10, 0, 0, 1]] }, none), (s.1 + 2, s.2))

/-- A resolver with IPv6 enabled, the given host table and the example
upstream. -/
def exampleResolver (hosts : Option DomainTrie) : Resolver Nat :=
  { ipv6 := true, hosts := hosts, ExchangeContext := exampleExchange }

/-- An enhancer of the given mode with the example pool and the cache `0`. -/
def exampleMapper (mode : DNSMode) : ResolverEnhancer Nat :=
  { mode := mode, fakePool := examplePool, mapping := some 0 }

/-- A resolver with IPv6 disabled, the given host table and the example
upstream. -/
def exampleResolverNo6 (hosts : Option DomainTrie) : Resolver Nat :=
  { ipv6 := false, hosts := hosts, ExchangeContext := exampleExchange }

/-- An upstream that refuses, after 2 nanoseconds, every request that does not
have exactly one question, and answers the others as the example upstream. -/
def exampleExchangeStrict : Msg → Time × Nat → (Option Msg × Option Error) × (Time × Nat) :=
  fun r s =>
    if r.Question.length = 1 then exampleExchange r s
    else ((none, some "format error"), (s.1 + 2, s.2))

/-- A request with the two questions `name type IN` and `other. A IN`. -/
def exampleQuery2 (name : String) (qtype : Nat) : Msg :=
  { Id := 7, RecursionDesired := true,
    Question := [{ Name := name, Qtype := qtype, Qclass := ClassINET },
      { Name := "other.", Qtype := TypeA, Qclass := ClassINET }] }

/-- Three answer records: an A record `10.0.0.1` of TTL 300, a TXT record of
TTL 60 and an AAAA record `::1` of TTL 20. -/
def exampleAnswers : List RR :=
  [RR.A { Name := "example.com.", Rrtype := TypeA, Class := ClassINET, Ttl := 300 } [10, 0, 0, 1],
   RR.other { Name := "example.com.", Rrtype := 16, Class := ClassINET, Ttl := 60 } [1, 2],
   RR.AAAA { Name := "example.com.", Rrtype := TypeAAAA, Class := ClassINET, Ttl := 20 }
     [0, 0, 0, 0, 0, 0, 0, 0, 0, 0, 0, 0, 0, 0, 0, 1]]

/-- A next handler that answers, after 1 nanosecond, with the example answer
records and no error. -/
def exampleNextOk : handler Nat :=
  fun w r =>
    (Result.ret (some {
        Id := r.Id, Response := true, Question := r.Question, Answer := exampleAnswers }) none,
      { w with now := w.now + 1 })

/-- A resolver with IPv6 enabled, no host table, and the upstream that refuses
requests without exactly one question. -/
def exampleResolverStrict : Resolver Nat :=
  { ipv6 := true, hosts := none, ExchangeContext := exampleExchangeStrict }

/-! ## Composition -/

section Composition

variable {σ : Type}

/-- After the iterations `i = n - 1, ..., 0` the loop of `compose` has wrapped
`h` in the first `n` units, the first unit outermost. -/
theorem composeLoop_eq_foldr (middlewares : List (middleware σ)) :
    ∀ (n : Nat) (hn : n ≤ middlewares.length) (h : handler σ),
      composeLoop middlewares n hn h = (middlewares.take n).foldr (fun m acc => m acc) h := by
  intro n
  induction n with
  | zero => intro hn h; simp [composeLoop]
  | succ i ih =>
    intro hn h
    have hi : i < middlewares.length := hn
    rw [composeLoop, ih]
    have ht : List.take (i + 1) middlewares = List.take i middlewares ++ [middlewares[i]] := by
      rw [List.take_succ, List.getElem?_eq_getElem hi]; rfl
    rw [ht, List.foldr_append]
    rfl

theorem compose_eq_foldr (middlewares : List (middleware σ)) (endpoint : handler σ) :
    compose middlewares endpoint = middlewares.foldr (fun m acc => m acc) endpoint := by
  rw [compose, composeLoop_eq_foldr, List.take_length]

theorem compose_nil (endpoint : handler σ) : compose ([] : List (middleware σ)) endpoint = endpoint := by
  rw [compose_eq_foldr]; rfl

theorem compose_cons (m : middleware σ) (rest : List (middleware σ)) (endpoint : handler σ) :
    compose (m :: rest) endpoint = m (compose rest endpoint) := by
  rw [compose_eq_foldr, compose_eq_foldr]; rfl

/-- C2: for every list of middleware and every terminal handler `t`, `compose`
returns the right fold `m1 (m2 (... (mn t)))`: on the empty list it is `t`
itself, on `m` followed by `rest` it is `m` applied to `compose rest t`, so the
first unit is the outermost handler.  `compose` is a total function: its loop
ends on every list. -/
theorem compose_first_unit_outermost (middlewares : List (middleware σ)) (t : handler σ) :
    compose middlewares t = middlewares.foldr (fun m acc => m acc) t ∧
    compose ([] : List (middleware σ)) t = t ∧
    (∀ (m : middleware σ) (rest : List (middleware σ)),
      compose (m :: rest) t = m (compose rest t)) ∧
    (∀ m1 m2 m3 : middleware σ, compose [m1, m2, m3] t = m1 (m2 (m3 t))) :=
  ⟨compose_eq_foldr middlewares t, compose_nil t, fun m rest => compose_cons m rest t,
    fun m1 m2 m3 => by simp [compose_cons, compose_nil]⟩

end Composition

/-! ## Pipeline assembly -/

section Assembly

variable {σ : Type}

/-- The handler of `NewHandler` as nested applications: each unit that is
present wraps everything after it, around the terminal handler. -/
theorem NewHandler_eq_nested (ttl : Nat) (resolver : Resolver σ) (mapper : ResolverEnhancer σ) :
    NewHandler ttl resolver mapper =
      (match resolver.hosts with
        | some hosts => withHosts hosts mapper.mapping
        | none => id)
        ((if mapper.mode = DNSMode.DNSFakeIP then withFakeIP ttl mapper.fakePool else id)
          ((if mapper.mode ≠ DNSMode.DNSNormal then withMapping mapper.mapping else id)
            (withResolver resolver))) := by
  cases hh : resolver.hosts <;> cases hm : mapper.mode <;>
    simp [NewHandler, hh, hm, compose_cons, compose_nil]

/-- C1: `NewHandler` returns `compose L (withResolver resolver)` where `L` is
`withHosts hosts mapping` iff a host table is configured, then `withFakeIP pool`
iff the mode is FakeIP, then `withMapping mapping` iff the mode is not Normal,
and nothing else; the terminal resolver handler is the innermost handler. -/
theorem NewHandler_units (ttl : Nat) (resolver : Resolver σ) (mapper : ResolverEnhancer σ) :
    NewHandler ttl resolver mapper =
      compose
        ((match resolver.hosts with
          | some hosts => [withHosts hosts mapper.mapping]
          | none => []) ++
         (if mapper.mode = DNSMode.DNSFakeIP then [withFakeIP ttl mapper.fakePool] else []) ++
         (if mapper.mode ≠ DNSMode.DNSNormal then [withMapping mapper.mapping] else []))
        (withResolver resolver) ∧
    NewHandler ttl resolver mapper =
      (match resolver.hosts with
        | some hosts => withHosts hosts mapper.mapping
        | none => id)
        ((if mapper.mode = DNSMode.DNSFakeIP then withFakeIP ttl mapper.fakePool else id)
          ((if mapper.mode ≠ DNSMode.DNSNormal then withMapping mapper.mapping else id)
            (withResolver resolver))) := by
  refine ⟨?_, NewHandler_eq_nested ttl resolver mapper⟩
  cases hh : resolver.hosts <;> cases hm : mapper.mode <;> simp [NewHandler, hh, hm]

end Assembly

/-! ## The hosts middleware -/

section Hosts

variable {σ : Type}

theorem isIPRequest_iff (q : Question) :
    isIPRequest q = true ↔ q.Qtype = TypeA ∨ q.Qtype = TypeAAAA := by
  simp [isIPRequest]

theorem withHosts_not_ip (hosts : DomainTrie) (mapping : Option LruCache) (next : handler σ)
    (w : World σ) (r : Msg) (q : Question) (qs : List Question) (hq : r.Question = q :: qs)
    (ht : ¬ (q.Qtype = TypeA ∨ q.Qtype = TypeAAAA)) :
    withHosts hosts mapping next w r = next w r := by
  have h : isIPRequest q = false := by
    rw [← Bool.not_eq_true, isIPRequest_iff]; exact ht
  simp [withHosts, hq, h]

theorem withHosts_miss (hosts : DomainTrie) (mapping : Option LruCache) (next : handler σ)
    (w : World σ) (r : Msg) (q : Question) (qs : List Question) (hq : r.Question = q :: qs)
    (hs : hosts.Search (TrimRight q.Name ".") = none) :
    withHosts hosts mapping next w r = next w r := by
  simp [withHosts, hq, hs]

theorem withHosts_A_not4 (hosts : DomainTrie) (mapping : Option LruCache) (next : handler σ)
    (w : World σ) (r : Msg) (q : Question) (qs : List Question) (ip : Addr)
    (hq : r.Question = q :: qs) (hs : hosts.Search (TrimRight q.Name ".") = some ip)
    (ht : q.Qtype = TypeA) (h4 : ip.Is4 = false) :
    withHosts hosts mapping next w r = next w r := by
  simp [withHosts, hq, hs, ht, h4, isIPRequest]

/-- On a hit that it answers, `withHosts` returns the request turned into a
response with the one synthesized record, after the cache write (when a cache
was supplied) and the write of the resolution kind. -/
theorem withHosts_hit (hosts : DomainTrie) (mapping : Option LruCache) (next : handler σ)
    (w : World σ) (r : Msg) (q : Question) (qs : List Question) (ip : Addr)
    (hq : r.Question = q :: qs) (hs : hosts.Search (TrimRight q.Name ".") = some ip)
    (ht : (q.Qtype = TypeA ∧ ip.Is4 = true) ∨ q.Qtype = TypeAAAA) :
    withHosts hosts mapping next w r =
      (Result.ret (some { r with
          Response := true, Rcode := RcodeSuccess, Authoritative := true,
          RecursionAvailable := true, Question := [q],
          Answer := [if q.Qtype = TypeA then
              RR.A { Name := q.Name, Rrtype := TypeA, Class := ClassINET, Ttl := 10 } ip.AsSlice
            else
              RR.AAAA { Name := q.Name, Rrtype := TypeAAAA, Class := ClassINET, Ttl := 10 }
                ip.As16] }) none,
        (match mapping with
          | some c => w.SetWithExpire c ip (TrimRight q.Name ".") (w.now + Second * 10)
          | none => w).SetType DNSType.DNSTypeHost) := by
  obtain ⟨id, resp, op, aa, tc, rd, ra, z, ad, cd, rc, cmp, qn, an, ns, ex⟩ := r
  simp only at hq
  subst hq
  rcases ht with ⟨hA, h4⟩ | h6 <;> cases mapping
  all_goals first
    | simp [withHosts, hs, hA, h4, isIPRequest, Msg.Copy, Msg.SetRcode, Msg.SetReply]
    | simp [withHosts, hs, h6, isIPRequest, Msg.Copy, Msg.SetRcode, Msg.SetReply]

/-- C4: for a request with at least one question, if the first question is not
of type A or AAAA, or the stripped name has no entry in the host table, or the
type is A and the stored address is not an IPv4 address, then `withHosts`
yields exactly what `next` yields on the same world and request: the same
message and error, and the same resulting world (resolution kind, cache
writes, clock, collaborator state). -/
theorem withHosts_passthrough (hosts : DomainTrie) (mapping : Option LruCache)
    (next : handler σ) (w : World σ) (r : Msg) (q : Question) (qs : List Question)
    (hq : r.Question = q :: qs)
    (h : ¬ (q.Qtype = TypeA ∨ q.Qtype = TypeAAAA) ∨
      hosts.Search (TrimRight q.Name ".") = none ∨
      (q.Qtype = TypeA ∧
        ∃ ip, hosts.Search (TrimRight q.Name ".") = some ip ∧ ip.Is4 = false)) :
    withHosts hosts mapping next w r = next w r := by
  rcases h with h | h | ⟨hA, ip, hs, h4⟩
  · exact withHosts_not_ip hosts mapping next w r q qs hq h
  · exact withHosts_miss hosts mapping next w r q qs hq h
  · exact withHosts_A_not4 hosts mapping next w r q qs ip hq hs hA h4

/-- Witness of C4, one request for each of the three conditions: a TXT query
for a name of the table, an A query for a name that is not in the table, and
an A query for a name whose entry is an IPv6 address. -/
theorem withHosts_passthrough_witness :
    withHosts exampleHosts (some 0) exampleNext exampleWorld (exampleQuery "router.lan." 16) =
      exampleNext exampleWorld (exampleQuery "router.lan." 16) ∧
    withHosts exampleHosts (some 0) exampleNext exampleWorld (exampleQuery "other.lan." TypeA) =
      exampleNext exampleWorld (exampleQuery "other.lan." TypeA) ∧
    withHosts exampleHosts6 (some 0) exampleNext exampleWorld (exampleQuery "router.lan." TypeA) =
      exampleNext exampleWorld (exampleQuery "router.lan." TypeA) :=
  ⟨withHosts_passthrough exampleHosts (some 0) exampleNext exampleWorld
      (exampleQuery "router.lan." 16) ⟨"router.lan.", 16, ClassINET⟩ [] rfl
      (Or.inl (by decide)),
    withHosts_passthrough exampleHosts (some 0) exampleNext exampleWorld
      (exampleQuery "other.lan." TypeA) ⟨"other.lan.", TypeA, ClassINET⟩ [] rfl
      (Or.inr (Or.inl (by decide))),
    withHosts_passthrough exampleHosts6 (some 0) exampleNext exampleWorld
      (exampleQuery "router.lan." TypeA) ⟨"router.lan.", TypeA, ClassINET⟩ [] rfl
      (Or.inr (Or.inr ⟨rfl, Addr.ip6 (List.replicate 15 0 ++ [1]) "", by decide, rfl⟩))⟩

/-- C5: when the stripped name has a host-table entry `ip` and the query is of
type A with `ip` an IPv4 address, or of type AAAA, `withHosts` returns the same
result whatever `next` is (it does not invoke it), with no error: the request
turned into a response with result code success, authoritative and
recursion-available set, and exactly one answer record of the queried type,
named with the queried name as sent, class INET, TTL 10, holding `ip` for an A
record and the 16-byte form of `ip` for an AAAA record; the resolution kind is
Host. -/
theorem withHosts_synthesizes (hosts : DomainTrie) (mapping : Option LruCache)
    (next : handler σ) (w : World σ) (r : Msg) (q : Question) (qs : List Question) (ip : Addr)
    (hq : r.Question = q :: qs) (hs : hosts.Search (TrimRight q.Name ".") = some ip)
    (ht : (q.Qtype = TypeA ∧ ip.Is4 = true) ∨ q.Qtype = TypeAAAA) :
    (∀ next2 : handler σ,
      withHosts hosts mapping next2 w r = withHosts hosts mapping next w r) ∧
    (withHosts hosts mapping next w r).1 =
      Result.ret (some { r with
        Response := true, Rcode := RcodeSuccess, Authoritative := true,
        RecursionAvailable := true, Question := [q],
        Answer := [if q.Qtype = TypeA then
            RR.A { Name := q.Name, Rrtype := TypeA, Class := ClassINET, Ttl := 10 } ip.AsSlice
          else
            RR.AAAA { Name := q.Name, Rrtype := TypeAAAA, Class := ClassINET, Ttl := 10 }
              ip.As16] }) none ∧
    (withHosts hosts mapping next w r).2.ctx.tp = DNSType.DNSTypeHost ∧
    (∀ a b c d : Nat, ip = Addr.ip4 a b c d →
      ip.AsSlice = [a, b, c, d] ∧
      ip.As16 = [0, 0, 0, 0, 0, 0, 0, 0, 0, 0, 255, 255, a, b, c, d]) := by
  refine ⟨fun next2 => ?_, ?_, ?_, ?_⟩
  · rw [withHosts_hit hosts mapping next2 w r q qs ip hq hs ht,
      withHosts_hit hosts mapping next w r q qs ip hq hs ht]
  · rw [withHosts_hit hosts mapping next w r q qs ip hq hs ht]
  · rw [withHosts_hit hosts mapping next w r q qs ip hq hs ht]; rfl
  · rintro a b c d rfl
    exact ⟨rfl, rfl⟩

/-- Witness of C5: with the table `router.lan -> 192.168.1.1`, the A query for
`router.lan.` gives the single A record `192.168.1.1` with TTL 10, and the AAAA
query gives the single AAAA record `::ffff:192.168.1.1` with TTL 10. -/
theorem withHosts_synthesizes_witness :
    (withHosts exampleHosts none exampleNext exampleWorld (exampleQuery "router.lan." TypeA)).1 =
      Result.ret (some {
        Id := 7, Response := true, RecursionDesired := true,
        Authoritative := true, RecursionAvailable := true, Rcode := 0,
        Question := [{ Name := "router.lan.", Qtype := 1, Qclass := 1 }],
        Answer := [RR.A { Name := "router.lan.", Rrtype := 1, Class := 1, Ttl := 10 }
          [192, 168, 1, 1]] }) none ∧
    (withHosts exampleHosts none exampleNext exampleWorld
        (exampleQuery "router.lan." TypeAAAA)).1 =
      Result.ret (some {
        Id := 7, Response := true, RecursionDesired := true,
        Authoritative := true, RecursionAvailable := true, Rcode := 0,
        Question := [{ Name := "router.lan.", Qtype := 28, Qclass := 1 }],
        Answer := [RR.AAAA { Name := "router.lan.", Rrtype := 28, Class := 1, Ttl := 10 }
          [0, 0, 0, 0, 0, 0, 0, 0, 0, 0, 255, 255, 192, 168, 1, 1]] }) none :=
  ⟨(withHosts_synthesizes exampleHosts none exampleNext exampleWorld
      (exampleQuery "router.lan." TypeA) ⟨"router.lan.", TypeA, ClassINET⟩ []
      (Addr.ip4 192 168 1 1) rfl (by decide) (Or.inl ⟨rfl, rfl⟩)).2.1,
    (withHosts_synthesizes exampleHosts none exampleNext exampleWorld
      (exampleQuery "router.lan." TypeAAAA) ⟨"router.lan.", TypeAAAA, ClassINET⟩ []
      (Addr.ip4 192 168 1 1) rfl (by decide) (Or.inr rfl)).2.1⟩

/-- C6: when `withHosts` synthesizes an answer and the cache `c` was supplied,
it makes exactly one cache write, to `c`: key the address stored in the host
table, value the queried name with trailing dots stripped, expiry the current
time plus 10 seconds.  With no cache supplied it makes no cache write, and the
response and the resolution kind are the same in both cases. -/
theorem withHosts_cache_write (hosts : DomainTrie) (c : LruCache)
    (next : handler σ) (w : World σ) (r : Msg) (q : Question) (qs : List Question) (ip : Addr)
    (hq : r.Question = q :: qs) (hs : hosts.Search (TrimRight q.Name ".") = some ip)
    (ht : (q.Qtype = TypeA ∧ ip.Is4 = true) ∨ q.Qtype = TypeAAAA) :
    (withHosts hosts (some c) next w r).2.cacheWrites =
      w.cacheWrites ++
        [{ cache := c, key := ip, value := TrimRight q.Name ".", expires := w.now + 10 * Second }] ∧
    (withHosts hosts none next w r).2.cacheWrites = w.cacheWrites ∧
    (withHosts hosts (some c) next w r).1 = (withHosts hosts none next w r).1 ∧
    (withHosts hosts (some c) next w r).2.ctx = (withHosts hosts none next w r).2.ctx := by
  rw [withHosts_hit hosts (some c) next w r q qs ip hq hs ht,
    withHosts_hit hosts none next w r q qs ip hq hs ht]
  refine ⟨?_, rfl, rfl, rfl⟩
  simp [World.SetType, World.SetWithExpire, Nat.mul_comm]

/-- Witness of C6: the AAAA query for `router.lan.` with the table
`router.lan -> 192.168.1.1` at clock 5 writes the IPv4 address itself as the
key, the name without its dot as the value, and expiry 5 + 10 s. -/
theorem withHosts_cache_write_witness :
    (withHosts exampleHosts (some 0) exampleNext exampleWorld
        (exampleQuery "router.lan." TypeAAAA)).2.cacheWrites =
      [{ cache := 0, key := Addr.ip4 192 168 1 1, value := "router.lan",
         expires := 10000000005 }] ∧
    (withHosts exampleHosts none exampleNext exampleWorld
        (exampleQuery "router.lan." TypeAAAA)).2.cacheWrites = [] :=
  ⟨(withHosts_cache_write exampleHosts 0 exampleNext exampleWorld
      (exampleQuery "router.lan." TypeAAAA) ⟨"router.lan.", TypeAAAA, ClassINET⟩ []
      (Addr.ip4 192 168 1 1) rfl (by decide) (Or.inr rfl)).1,
    (withHosts_cache_write exampleHosts 0 exampleNext exampleWorld
      (exampleQuery "router.lan." TypeAAAA) ⟨"router.lan.", TypeAAAA, ClassINET⟩ []
      (Addr.ip4 192 168 1 1) rfl (by decide) (Or.inr rfl)).2.1⟩

end Hosts

/-! ## The hosts middleware in the assembled pipeline -/

section HostsPipeline

variable {σ : Type}

/-- With a host table configured, the assembled handler is `withHosts` around
the rest of the chain. -/
theorem NewHandler_with_hosts (ttl : Nat) (resolver : Resolver σ) (mapper : ResolverEnhancer σ)
    (hosts : DomainTrie) (hh : resolver.hosts = some hosts) :
    NewHandler ttl resolver mapper =
      withHosts hosts mapper.mapping
        ((if mapper.mode = DNSMode.DNSFakeIP then withFakeIP ttl mapper.fakePool else id)
          ((if mapper.mode ≠ DNSMode.DNSNormal then withMapping mapper.mapping else id)
            (withResolver resolver))) := by
  rw [NewHandler_eq_nested, hh]

/-- C3, as the code has it: for every handler built by `NewHandler` with a
host table configured, whatever the mode, pool and mapping cache, and every
request whose stripped name has an entry `ip` in the table and whose first
question is of type AAAA, or of type A with `ip` an IPv4 address: the response
comes with no error, has authoritative and recursion-available set, result
code success, exactly one answer record, whose TTL is 10, and the resolution
kind is Host. -/
theorem NewHandler_hosts_hit (ttl : Nat) (resolver : Resolver σ) (mapper : ResolverEnhancer σ)
    (hosts : DomainTrie) (w : World σ) (r : Msg) (q : Question) (qs : List Question) (ip : Addr)
    (hh : resolver.hosts = some hosts) (hq : r.Question = q :: qs)
    (hs : hosts.Search (TrimRight q.Name ".") = some ip)
    (ht : (q.Qtype = TypeA ∧ ip.Is4 = true) ∨ q.Qtype = TypeAAAA) :
    ∃ (msg : Msg) (rr : RR),
      (NewHandler ttl resolver mapper w r).1 = Result.ret (some msg) none ∧
      msg.Authoritative = true ∧ msg.RecursionAvailable = true ∧
      msg.Rcode = RcodeSuccess ∧ msg.Answer = [rr] ∧ rr.Header.Ttl = 10 ∧
      (NewHandler ttl resolver mapper w r).2.ctx.tp = DNSType.DNSTypeHost := by
  rw [NewHandler_with_hosts ttl resolver mapper hosts hh,
    withHosts_hit hosts mapper.mapping _ w r q qs ip hq hs ht]
  refine ⟨_, _, rfl, rfl, rfl, rfl, rfl, ?_, rfl⟩
  split <;> rfl

/-- Witness of C3 as amended: in FakeIP mode with the table
`router.lan -> 192.168.1.1`, the A query for `router.lan.` is answered from
the table. -/
theorem NewHandler_hosts_hit_witness :
    ∃ (msg : Msg) (rr : RR),
      (NewHandler 600 (exampleResolver (some exampleHosts)) (exampleMapper DNSMode.DNSFakeIP)
        exampleWorld (exampleQuery "router.lan." TypeA)).1 = Result.ret (some msg) none ∧
      msg.Authoritative = true ∧ msg.RecursionAvailable = true ∧
      msg.Rcode = RcodeSuccess ∧ msg.Answer = [rr] ∧ rr.Header.Ttl = 10 ∧
      (NewHandler 600 (exampleResolver (some exampleHosts)) (exampleMapper DNSMode.DNSFakeIP)
        exampleWorld (exampleQuery "router.lan." TypeA)).2.ctx.tp = DNSType.DNSTypeHost :=
  NewHandler_hosts_hit 600 (exampleResolver (some exampleHosts))
    (exampleMapper DNSMode.DNSFakeIP) exampleHosts exampleWorld
    (exampleQuery "router.lan." TypeA) ⟨"router.lan.", TypeA, ClassINET⟩ []
    (Addr.ip4 192 168 1 1) rfl rfl (by decide) (Or.inl ⟨rfl, rfl⟩)

/-- Counterexample to C3 as stated: the host table has the entry
`router.lan -> ::1` and the request is the A query for `router.lan.`, so the
first question is of type A and its stripped name has an entry; yet the hosts
middleware delegates, the upstream answers, and the response carries a record
of TTL 300 and the resolution kind Raw. -/
theorem NewHandler_hosts_hit_counterexample :
    (exampleResolver (some exampleHosts6)).hosts = some exampleHosts6 ∧
    (exampleQuery "router.lan." TypeA).Question =
      [{ Name := "router.lan.", Qtype := TypeA, Qclass := ClassINET }] ∧
    exampleHosts6.Search (TrimRight "router.lan." ".") =
      some (Addr.ip6 [0, 0, 0, 0, 0, 0, 0, 0, 0, 0, 0, 0, 0, 0, 0, 1] "") ∧
    (NewHandler 600 (exampleResolver (some exampleHosts6)) (exampleMapper DNSMode.DNSNormal)
      exampleWorld (exampleQuery "router.lan." TypeA)).1 =
      Result.ret (some {
        Id := 7, Response := true, RecursionDesired := true, Authoritative := true,
        Question := [{ Name := "router.lan.", Qtype := 1, Qclass := 1 }],
        Answer := [RR.A { Name := "upstream.", Rrtype := 1, Class := 1, Ttl := 300 }
          [10, 0, 0, 1]] }) none ∧
    (NewHandler 600 (exampleResolver (some exampleHosts6)) (exampleMapper DNSMode.DNSNormal)
      exampleWorld (exampleQuery "router.lan." TypeA)).2.ctx.tp = DNSType.DNSTypeRaw :=
  ⟨rfl, rfl, by decide, by decide, by decide⟩

end HostsPipeline

/-! ## The fake-IP middleware -/

section FakeIP

variable {σ : Type}

/-- The empty-answer response to a request with first question `q`. -/
theorem handleMsgWithEmptyAnswer_fields (r : Msg) (q : Question) (qs : List Question)
    (hq : r.Question = q :: qs) :
    (handleMsgWithEmptyAnswer r).Question = [q] ∧
    (handleMsgWithEmptyAnswer r).Answer = [] ∧
    (handleMsgWithEmptyAnswer r).Rcode = RcodeSuccess ∧
    (handleMsgWithEmptyAnswer r).Authoritative = true ∧
    (handleMsgWithEmptyAnswer r).RecursionAvailable = true ∧
    (handleMsgWithEmptyAnswer r).Response = true ∧
    (handleMsgWithEmptyAnswer r).Id = r.Id := by
  unfold handleMsgWithEmptyAnswer Msg.SetRcode Msg.SetReply
  rw [hq]
  refine ⟨?_, ?_, ?_, ?_, ?_, ?_, ?_⟩ <;> first | rfl | (dsimp only; split <;> rfl)

theorem withFakeIP_skipped (ttl : Nat) (pool : Pool σ) (next : handler σ) (w : World σ)
    (r : Msg) (q : Question) (qs : List Question) (hq : r.Question = q :: qs)
    (hskip : pool.ShouldSkipped (TrimRight q.Name ".") = true) :
    withFakeIP ttl pool next w r = next w r := by
  simp [withFakeIP, hq, hskip]

theorem withFakeIP_other_type (ttl : Nat) (pool : Pool σ) (next : handler σ) (w : World σ)
    (r : Msg) (q : Question) (qs : List Question) (hq : r.Question = q :: qs)
    (ht : q.Qtype ≠ TypeA ∧ q.Qtype ≠ TypeAAAA ∧ q.Qtype ≠ TypeSVCB ∧ q.Qtype ≠ TypeHTTPS) :
    withFakeIP ttl pool next w r = next w r := by
  obtain ⟨h1, h2, h3, h4⟩ := ht
  by_cases hskip : pool.ShouldSkipped (TrimRight q.Name ".") = true
  · exact withFakeIP_skipped ttl pool next w r q qs hq hskip
  · simp [withFakeIP, hq, hskip, h1, h2, h3, h4]

theorem withFakeIP_empty (ttl : Nat) (pool : Pool σ) (next : handler σ) (w : World σ)
    (r : Msg) (q : Question) (qs : List Question) (hq : r.Question = q :: qs)
    (hskip : pool.ShouldSkipped (TrimRight q.Name ".") = false)
    (ht : q.Qtype = TypeAAAA ∨ q.Qtype = TypeSVCB ∨ q.Qtype = TypeHTTPS) :
    withFakeIP ttl pool next w r = (Result.ret (some (handleMsgWithEmptyAnswer r)) none, w) := by
  simp [withFakeIP, hq, hskip, ht]

/-- On an A query for a name that is not skipped, `withFakeIP` returns the
request turned into a response with the one A record of the looked-up address
and TTL 1, after the lookup and the write of the resolution kind. -/
theorem withFakeIP_hit (ttl : Nat) (pool : Pool σ) (next : handler σ) (w : World σ)
    (r : Msg) (q : Question) (qs : List Question) (hq : r.Question = q :: qs)
    (hA : q.Qtype = TypeA) (hskip : pool.ShouldSkipped (TrimRight q.Name ".") = false) :
    withFakeIP ttl pool next w r =
      (Result.ret (some { r with
          Response := true, Rcode := RcodeSuccess, Authoritative := true,
          RecursionAvailable := true, Question := [q],
          Answer := [RR.A { Name := q.Name, Rrtype := TypeA, Class := ClassINET, Ttl := 1 }
            (pool.Lookup (TrimRight q.Name ".") w.ext).1.AsSlice] }) none,
        World.SetType { w with ext := (pool.Lookup (TrimRight q.Name ".") w.ext).2 }
          DNSType.DNSTypeFakeIP) := by
  obtain ⟨id, resp, op, aa, tc, rd, ra, z, ad, cd, rc, cmp, qn, an, ns, ex⟩ := r
  simp only at hq
  subst hq
  simp [withFakeIP, hskip, hA, setMsgTTL, RR.setTtl, Msg.Copy, Msg.SetRcode, Msg.SetReply]

/-- C7: for an A query whose stripped name the pool does not skip,
`withFakeIP` returns the same result whatever `next` and whatever the constant
`dnsDefaultTTL` are (it does not invoke `next`), with no error: a response
with exactly one answer, an A record named with the queried name, class INET,
TTL 1, holding the address `pool.Lookup` gives for the stripped name; the
result code is success, authoritative and recursion-available are set, and
the resolution kind is FakeIP. -/
theorem withFakeIP_synthesizes (ttl : Nat) (pool : Pool σ) (next : handler σ) (w : World σ)
    (r : Msg) (q : Question) (qs : List Question) (hq : r.Question = q :: qs)
    (hA : q.Qtype = TypeA) (hskip : pool.ShouldSkipped (TrimRight q.Name ".") = false) :
    (∀ (ttl2 : Nat) (next2 : handler σ),
      withFakeIP ttl2 pool next2 w r = withFakeIP ttl pool next w r) ∧
    (∃ msg : Msg,
      (withFakeIP ttl pool next w r).1 = Result.ret (some msg) none ∧
      msg.Answer =
        [RR.A { Name := q.Name, Rrtype := TypeA, Class := ClassINET, Ttl := 1 }
          (pool.Lookup (TrimRight q.Name ".") w.ext).1.AsSlice] ∧
      msg.Rcode = RcodeSuccess ∧ msg.Authoritative = true ∧
      msg.RecursionAvailable = true) ∧
    (withFakeIP ttl pool next w r).2.ctx.tp = DNSType.DNSTypeFakeIP := by
  refine ⟨fun ttl2 next2 => ?_, ?_, ?_⟩
  · rw [withFakeIP_hit ttl2 pool next2 w r q qs hq hA hskip,
      withFakeIP_hit ttl pool next w r q qs hq hA hskip]
  · rw [withFakeIP_hit ttl pool next w r q qs hq hA hskip]
    exact ⟨_, rfl, rfl, rfl, rfl, rfl⟩
  · rw [withFakeIP_hit ttl pool next w r q qs hq hA hskip]; rfl

/-- Witness of C7: the pool gives `198.18.0.2` for `example.com`, and the A
query for `example.com.` gives the single A record `198.18.0.2` with TTL 1. -/
theorem withFakeIP_synthesizes_witness :
    ∃ msg : Msg,
      (withFakeIP 600 examplePool exampleNext exampleWorld
        (exampleQuery "example.com." TypeA)).1 = Result.ret (some msg) none ∧
      msg.Answer =
        [RR.A { Name := "example.com.", Rrtype := 1, Class := 1, Ttl := 1 } [198, 18, 0, 2]] ∧
      msg.Rcode = 0 ∧ msg.Authoritative = true ∧ msg.RecursionAvailable = true :=
  (withFakeIP_synthesizes 600 examplePool exampleNext exampleWorld
    (exampleQuery "example.com." TypeA) ⟨"example.com.", TypeA, ClassINET⟩ [] rfl rfl
    (by decide)).2.1

/-- C9: for a query of type AAAA, SVCB or HTTPS whose stripped name the pool
does not skip, `withFakeIP` returns, with no error and without changing the
world, the empty-answer response for the request: the same question, zero
answers, result code success, authoritative and recursion-available set.  The
result is the same whatever `next` and whatever the `Lookup` of the pool are:
neither is called. -/
theorem withFakeIP_empty_answer (ttl : Nat) (pool : Pool σ) (next : handler σ) (w : World σ)
    (r : Msg) (q : Question) (qs : List Question) (hq : r.Question = q :: qs)
    (hskip : pool.ShouldSkipped (TrimRight q.Name ".") = false)
    (ht : q.Qtype = TypeAAAA ∨ q.Qtype = TypeSVCB ∨ q.Qtype = TypeHTTPS) :
    withFakeIP ttl pool next w r =
      (Result.ret (some (handleMsgWithEmptyAnswer r)) none, w) ∧
    (∀ (pool2 : Pool σ) (next2 : handler σ), pool2.ShouldSkipped = pool.ShouldSkipped →
      withFakeIP ttl pool2 next2 w r = withFakeIP ttl pool next w r) ∧
    (handleMsgWithEmptyAnswer r).Question = [q] ∧
    (handleMsgWithEmptyAnswer r).Answer = [] ∧
    (handleMsgWithEmptyAnswer r).Rcode = RcodeSuccess ∧
    (handleMsgWithEmptyAnswer r).Authoritative = true ∧
    (handleMsgWithEmptyAnswer r).RecursionAvailable = true := by
  obtain ⟨h1, h2, h3, h4, h5, -, -⟩ := handleMsgWithEmptyAnswer_fields r q qs hq
  refine ⟨withFakeIP_empty ttl pool next w r q qs hq hskip ht, fun pool2 next2 hp => ?_,
    h1, h2, h3, h4, h5⟩
  rw [withFakeIP_empty ttl pool next w r q qs hq hskip ht,
    withFakeIP_empty ttl pool2 next2 w r q qs hq (by rw [hp]; exact hskip) ht]

/-- Witness of C9: in the example pool the AAAA query for `example.com.` gets
the empty answer, and the pool state still counts no lookup. -/
theorem withFakeIP_empty_answer_witness :
    withFakeIP 600 examplePool exampleNext exampleWorld (exampleQuery "example.com." TypeAAAA) =
      (Result.ret (some {
        Id := 7, Response := true, RecursionDesired := true, Authoritative := true,
        RecursionAvailable := true, Rcode := 0,
        Question := [{ Name := "example.com.", Qtype := 28, Qclass := 1 }],
        Answer := [] }) none, exampleWorld) :=
  (withFakeIP_empty_answer 600 examplePool exampleNext exampleWorld
    (exampleQuery "example.com." TypeAAAA) ⟨"example.com.", TypeAAAA, ClassINET⟩ [] rfl
    (by decide) (Or.inl rfl)).1

/-- C10: for a request with at least one question, if the pool skips the
stripped name (whatever the query type), or it does not and the query type is
none of A, AAAA, SVCB, HTTPS, then `withFakeIP` yields exactly what `next`
yields on the same world and the same request (message, error and resulting
world), and this whatever the `Lookup` of the pool is: it is not called. -/
theorem withFakeIP_passthrough (ttl : Nat) (pool : Pool σ) (next : handler σ) (w : World σ)
    (r : Msg) (q : Question) (qs : List Question) (hq : r.Question = q :: qs)
    (h : pool.ShouldSkipped (TrimRight q.Name ".") = true ∨
      (pool.ShouldSkipped (TrimRight q.Name ".") = false ∧
        q.Qtype ≠ TypeA ∧ q.Qtype ≠ TypeAAAA ∧ q.Qtype ≠ TypeSVCB ∧ q.Qtype ≠ TypeHTTPS)) :
    withFakeIP ttl pool next w r = next w r ∧
    (∀ pool2 : Pool σ, pool2.ShouldSkipped = pool.ShouldSkipped →
      withFakeIP ttl pool2 next w r = next w r) := by
  have key : ∀ pool2 : Pool σ, pool2.ShouldSkipped = pool.ShouldSkipped →
      withFakeIP ttl pool2 next w r = next w r := by
    intro pool2 hp
    rcases h with h | ⟨-, ht⟩
    · exact withFakeIP_skipped ttl pool2 next w r q qs hq (by rw [hp]; exact h)
    · exact withFakeIP_other_type ttl pool2 next w r q qs hq ht
  exact ⟨key pool rfl, key⟩

/-- Witness of C10: the A query for the skipped name `skipped.lan.` and the
TXT query for `example.com.` both go to `next` as they are. -/
theorem withFakeIP_passthrough_witness :
    withFakeIP 600 examplePool exampleNext exampleWorld (exampleQuery "skipped.lan." TypeA) =
      exampleNext exampleWorld (exampleQuery "skipped.lan." TypeA) ∧
    withFakeIP 600 examplePool exampleNext exampleWorld (exampleQuery "example.com." 16) =
      exampleNext exampleWorld (exampleQuery "example.com." 16) :=
  ⟨(withFakeIP_passthrough 600 examplePool exampleNext exampleWorld
      (exampleQuery "skipped.lan." TypeA) ⟨"skipped.lan.", TypeA, ClassINET⟩ [] rfl
      (Or.inl (by decide))).1,
    (withFakeIP_passthrough 600 examplePool exampleNext exampleWorld
      (exampleQuery "example.com." 16) ⟨"example.com.", 16, ClassINET⟩ [] rfl
      (Or.inr (by decide))).1⟩

end FakeIP

/-! ## The fake-IP middleware in the assembled pipeline -/

section FakeIPPipeline

variable {σ : Type}

/-- In FakeIP mode the chain below the hosts unit is `withFakeIP` around
`withMapping` around the terminal handler. -/
theorem NewHandler_fakeip_mode (ttl : Nat) (resolver : Resolver σ) (mapper : ResolverEnhancer σ)
    (hm : mapper.mode = DNSMode.DNSFakeIP) :
    NewHandler ttl resolver mapper =
      (match resolver.hosts with
        | some hosts => withHosts hosts mapper.mapping
        | none => id)
        (withFakeIP ttl mapper.fakePool (withMapping mapper.mapping (withResolver resolver))) := by
  rw [NewHandler_eq_nested, hm]
  simp

/-- C8, as the code has it: for every handler built by `NewHandler` with mode
FakeIP and every request whose first question is of type A and whose stripped
name is not skipped by the pool, when no host table is configured or the host
table has no IPv4 entry for the stripped name: the response has exactly one
answer, an A record with TTL exactly 1, holding the address `pool.Lookup`
gives for the stripped name. -/
theorem NewHandler_fakeip_A (ttl : Nat) (resolver : Resolver σ) (mapper : ResolverEnhancer σ)
    (w : World σ) (r : Msg) (q : Question) (qs : List Question)
    (hm : mapper.mode = DNSMode.DNSFakeIP) (hq : r.Question = q :: qs)
    (hA : q.Qtype = TypeA)
    (hskip : mapper.fakePool.ShouldSkipped (TrimRight q.Name ".") = false)
    (hh : ∀ (hosts : DomainTrie) (ip : Addr), resolver.hosts = some hosts →
      hosts.Search (TrimRight q.Name ".") = some ip → ip.Is4 = false) :
    ∃ msg : Msg,
      (NewHandler ttl resolver mapper w r).1 = Result.ret (some msg) none ∧
      msg.Answer =
        [RR.A { Name := q.Name, Rrtype := TypeA, Class := ClassINET, Ttl := 1 }
          (mapper.fakePool.Lookup (TrimRight q.Name ".") w.ext).1.AsSlice] := by
  rw [NewHandler_fakeip_mode ttl resolver mapper hm]
  have hfake := withFakeIP_hit ttl mapper.fakePool
    (withMapping mapper.mapping (withResolver resolver)) w r q qs hq hA hskip
  cases hhosts : resolver.hosts with
  | none =>
    simp only [id_eq]
    rw [hfake]
    exact ⟨_, rfl, rfl⟩
  | some hosts =>
    simp only
    have hpass : withHosts hosts mapper.mapping
        (withFakeIP ttl mapper.fakePool (withMapping mapper.mapping (withResolver resolver))) w r =
        withFakeIP ttl mapper.fakePool (withMapping mapper.mapping (withResolver resolver)) w r := by
      cases hs : hosts.Search (TrimRight q.Name ".") with
      | none => exact withHosts_miss hosts mapper.mapping _ w r q qs hq hs
      | some ip =>
        exact withHosts_A_not4 hosts mapper.mapping _ w r q qs ip hq hs hA
          (hh hosts ip hhosts hs)
    rw [hpass, hfake]
    exact ⟨_, rfl, rfl⟩

/-- Witness of C8 as amended: in FakeIP mode with the table
`router.lan -> 192.168.1.1`, the A query for `example.com.`, which has no entry
in the table, gets the single A record `198.18.0.2` with TTL 1. -/
theorem NewHandler_fakeip_A_witness :
    ∃ msg : Msg,
      (NewHandler 600 (exampleResolver (some exampleHosts)) (exampleMapper DNSMode.DNSFakeIP)
        exampleWorld (exampleQuery "example.com." TypeA)).1 = Result.ret (some msg) none ∧
      msg.Answer =
        [RR.A { Name := "example.com.", Rrtype := 1, Class := 1, Ttl := 1 } [198, 18, 0, 2]] :=
  NewHandler_fakeip_A 600 (exampleResolver (some exampleHosts))
    (exampleMapper DNSMode.DNSFakeIP) exampleWorld (exampleQuery "example.com." TypeA)
    ⟨"example.com.", TypeA, ClassINET⟩ [] rfl rfl rfl (by decide)
    (fun hosts ip h1 h2 => by
      cases h1
      have hn : exampleHosts.Search (TrimRight "example.com." ".") = none := by decide
      exact Option.noConfusion (hn.symm.trans h2))

/-- Counterexample to C8 as stated: mode FakeIP, the host table has the entry
`router.lan -> 192.168.1.1`, the pool does not skip `router.lan` and would give
it `198.18.0.3`; the A query for `router.lan.` is answered by the hosts
middleware with the record `192.168.1.1` of TTL 10. -/
theorem NewHandler_fakeip_A_counterexample :
    (exampleMapper DNSMode.DNSFakeIP).mode = DNSMode.DNSFakeIP ∧
    (exampleQuery "router.lan." TypeA).Question =
      [{ Name := "router.lan.", Qtype := TypeA, Qclass := ClassINET }] ∧
    (exampleMapper DNSMode.DNSFakeIP).fakePool.ShouldSkipped (TrimRight "router.lan." ".") =
      false ∧
    ((exampleMapper DNSMode.DNSFakeIP).fakePool.Lookup (TrimRight "router.lan." ".")
      exampleWorld.ext).1 = Addr.ip4 198 18 0 3 ∧
    (NewHandler 600 (exampleResolver (some exampleHosts)) (exampleMapper DNSMode.DNSFakeIP)
      exampleWorld (exampleQuery "router.lan." TypeA)).1 =
      Result.ret (some {
        Id := 7, Response := true, RecursionDesired := true, Authoritative := true,
        RecursionAvailable := true,
        Question := [{ Name := "router.lan.", Qtype := 1, Qclass := 1 }],
        Answer := [RR.A { Name := "router.lan.", Rrtype := 1, Class := 1, Ttl := 10 }
          [192, 168, 1, 1]] }) none :=
  ⟨rfl, rfl, by decide, by decide, by decide⟩

end FakeIPPipeline

/-! ## The mapping middleware -/

section Mapping

variable {σ : Type}

/-- The loop of `withMapping` on a non-nil cache appends to the log the writes
section 4.5 asks for, read at the clock of its start, and changes nothing
else. -/
theorem mappingLoop_some (c : LruCache) (host : String) (answers : List RR) :
    ∀ w : World σ, mappingLoop (some c) host answers w =
      some { w with cacheWrites := w.cacheWrites ++ mappingWrites c host w.now answers } := by
  induction answers with
  | nil => intro w; simp [mappingLoop, mappingWrites]
  | cons ans rest ih =>
    intro w
    cases ans with
    | A h a =>
      simp [mappingLoop, answerAddr, ih, World.SetWithExpire, mappingWrites, Nat.mul_comm]
    | AAAA h a =>
      simp [mappingLoop, answerAddr, ih, World.SetWithExpire, mappingWrites, Nat.mul_comm]
    | other h d =>
      simp [mappingLoop, answerAddr, ih, mappingWrites]

theorem withMapping_not_ip (mapping : Option LruCache) (next : handler σ) (w : World σ)
    (r : Msg) (q : Question) (qs : List Question) (hq : r.Question = q :: qs)
    (ht : ¬ (q.Qtype = TypeA ∨ q.Qtype = TypeAAAA)) :
    withMapping mapping next w r = next w r := by
  have h : isIPRequest q = false := by
    rw [← Bool.not_eq_true, isIPRequest_iff]; exact ht
  simp [withMapping, hq, h]

theorem withMapping_err (mapping : Option LruCache) (next : handler σ) (w w1 : World σ)
    (r : Msg) (q : Question) (qs : List Question) (m : Option Msg) (e : Error)
    (hq : r.Question = q :: qs) (ht : q.Qtype = TypeA ∨ q.Qtype = TypeAAAA)
    (hn : next w r = (Result.ret m (some e), w1)) :
    withMapping mapping next w r = (Result.ret none (some e), w1) := by
  have h : isIPRequest q = true := (isIPRequest_iff q).2 ht
  simp [withMapping, hq, h, hn]

theorem withMapping_ok (c : LruCache) (next : handler σ) (w w1 : World σ)
    (r : Msg) (q : Question) (qs : List Question) (msg : Msg)
    (hq : r.Question = q :: qs) (ht : q.Qtype = TypeA ∨ q.Qtype = TypeAAAA)
    (hn : next w r = (Result.ret (some msg) none, w1)) :
    withMapping (some c) next w r =
      (Result.ret (some msg) none,
        { w1 with cacheWrites :=
            w1.cacheWrites ++ mappingWrites c (TrimRight q.Name ".") w1.now msg.Answer }) := by
  have h : isIPRequest q = true := (isIPRequest_iff q).2 ht
  simp [withMapping, hq, h, hn, mappingLoop_some]

/-- No A or AAAA record, no write. -/
theorem mappingWrites_eq_nil (c : LruCache) (host : String) (now : Time) (answers : List RR)
    (h : ∀ rr ∈ answers, ∃ hdr d, rr = RR.other hdr d) :
    mappingWrites c host now answers = [] := by
  induction answers with
  | nil => rfl
  | cons ans rest ih =>
    obtain ⟨hdr, d, rfl⟩ := h _ (List.mem_cons_self _ _)
    have := ih (fun rr hrr => h rr (List.mem_cons_of_mem _ hrr))
    simpa [mappingWrites] using this

/-- C11: for a request whose first question is of type A or AAAA, when `next`
returns the message `msg` with no error and leaves the world `w1`,
`withMapping` on the cache `c` returns `msg` unchanged with no error, and the
cache writes it adds to the log are exactly, in answer order, one write per
answer record of type A or AAAA: key the address of the record, value the
queried name with trailing dots stripped, expiry the current time plus the
TTL of the record in seconds.  A record of another type causes no write, a
message with no A or AAAA answer no write at all, and nothing else of the
world changes. -/
theorem withMapping_records (c : LruCache) (next : handler σ) (w w1 : World σ)
    (r : Msg) (q : Question) (qs : List Question) (msg : Msg)
    (hq : r.Question = q :: qs) (ht : q.Qtype = TypeA ∨ q.Qtype = TypeAAAA)
    (hn : next w r = (Result.ret (some msg) none, w1)) :
    (withMapping (some c) next w r).1 = Result.ret (some msg) none ∧
    (withMapping (some c) next w r).2.cacheWrites =
      w1.cacheWrites ++ mappingWrites c (TrimRight q.Name ".") w1.now msg.Answer ∧
    ((∀ rr ∈ msg.Answer, ∃ hdr d, rr = RR.other hdr d) →
      (withMapping (some c) next w r).2.cacheWrites = w1.cacheWrites) ∧
    (∀ (hdr : RR_Header) (a : List Nat) (now : Time),
      mappingWrites c (TrimRight q.Name ".") now [RR.A hdr a] =
        [{ cache := c, key := IpToAddr a, value := TrimRight q.Name ".",
           expires := now + hdr.Ttl * Second }] ∧
      mappingWrites c (TrimRight q.Name ".") now [RR.AAAA hdr a] =
        [{ cache := c, key := IpToAddr a, value := TrimRight q.Name ".",
           expires := now + hdr.Ttl * Second }] ∧
      mappingWrites c (TrimRight q.Name ".") now [RR.other hdr a] = []) ∧
    (∀ l1 l2 : List RR,
      mappingWrites c (TrimRight q.Name ".") w1.now (l1 ++ l2) =
        mappingWrites c (TrimRight q.Name ".") w1.now l1 ++
          mappingWrites c (TrimRight q.Name ".") w1.now l2) ∧
    (withMapping (some c) next w r).2.ctx = w1.ctx ∧
    (withMapping (some c) next w r).2.typeWrites = w1.typeWrites ∧
    (withMapping (some c) next w r).2.now = w1.now ∧
    (withMapping (some c) next w r).2.ext = w1.ext := by
  rw [withMapping_ok c next w w1 r q qs msg hq ht hn]
  refine ⟨rfl, rfl, fun h => ?_, fun hdr a now => ⟨rfl, rfl, rfl⟩, fun l1 l2 => ?_,
    rfl, rfl, rfl, rfl⟩
  · simp [mappingWrites_eq_nil c _ _ _ h]
  · simp [mappingWrites, List.filterMap_append]

/-- Witness of C11: the A query for `example.com.` at clock 5, answered by
`next` at clock 6 with an A record of TTL 300, a TXT record and an AAAA record
of TTL 20, makes two writes, for the A and the AAAA record, in that order. -/
theorem withMapping_records_witness :
    (withMapping (some 0) exampleNextOk exampleWorld (exampleQuery "example.com." TypeA)).2.cacheWrites =
      [{ cache := 0, key := Addr.ip4 10 0 0 1, value := "example.com",
         expires := 300000000006 },
       { cache := 0, key := Addr.ip6 [0, 0, 0, 0, 0, 0, 0, 0, 0, 0, 0, 0, 0, 0, 0, 1] "",
         value := "example.com", expires := 20000000006 }] :=
  (withMapping_records 0 exampleNextOk exampleWorld { exampleWorld with now := 6 }
    (exampleQuery "example.com." TypeA) ⟨"example.com.", TypeA, ClassINET⟩ []
    { Id := 7, Response := true,
      Question := [{ Name := "example.com.", Qtype := TypeA, Qclass := ClassINET }],
      Answer := exampleAnswers }
    rfl (Or.inl rfl) rfl).2.1

/-- C13: `withMapping` writes to the cache only for an address query on which
`next` succeeded.  For a first question that is not of type A or AAAA it
yields exactly what `next` yields.  For an address query on which `next`
returns the error `e`, with whatever message, it returns no message and that
same error `e`, and leaves the world as `next` left it.  Whenever the world
it leaves differs from the one `next` left, the question is an address query
and `next` returned a message and no error. -/
theorem withMapping_no_write (mapping : Option LruCache) (next : handler σ) (w : World σ)
    (r : Msg) (q : Question) (qs : List Question) (hq : r.Question = q :: qs) :
    (¬ (q.Qtype = TypeA ∨ q.Qtype = TypeAAAA) → withMapping mapping next w r = next w r) ∧
    ((q.Qtype = TypeA ∨ q.Qtype = TypeAAAA) →
      ∀ (m : Option Msg) (e : Error) (w1 : World σ),
        next w r = (Result.ret m (some e), w1) →
        withMapping mapping next w r = (Result.ret none (some e), w1)) ∧
    ((withMapping mapping next w r).2 ≠ (next w r).2 →
      (q.Qtype = TypeA ∨ q.Qtype = TypeAAAA) ∧
      ∃ msg : Msg, (next w r).1 = Result.ret (some msg) none) := by
  refine ⟨fun ht => withMapping_not_ip mapping next w r q qs hq ht,
    fun ht m e w1 hn => withMapping_err mapping next w w1 r q qs m e hq ht hn, fun hne => ?_⟩
  by_cases ht : q.Qtype = TypeA ∨ q.Qtype = TypeAAAA
  · refine ⟨ht, ?_⟩
    have h : isIPRequest q = true := (isIPRequest_iff q).2 ht
    rcases hn : next w r with ⟨res, w1⟩
    rw [hn] at hne
    cases res with
    | panic => exact absurd (by simp [withMapping, hq, h, hn]) hne
    | ret m e =>
      cases e with
      | some e => exact absurd (by simp [withMapping, hq, h, hn]) hne
      | none =>
        cases m with
        | none => exact absurd (by simp [withMapping, hq, h, hn]) hne
        | some msg => exact ⟨msg, rfl⟩
  · exact absurd (by rw [withMapping_not_ip mapping next w r q qs hq ht]) hne

/-- Witness of C13: a TXT query goes to `next` as it is, and on the A query the
error of `next` comes back with no message and no cache write. -/
theorem withMapping_no_write_witness :
    withMapping (some 0) exampleNext exampleWorld (exampleQuery "example.com." 16) =
      exampleNext exampleWorld (exampleQuery "example.com." 16) ∧
    withMapping (some 0) exampleNext exampleWorld (exampleQuery "example.com." TypeA) =
      (Result.ret none (some "next was called"), { exampleWorld with now := 6 }) :=
  ⟨(withMapping_no_write (some 0) exampleNext exampleWorld (exampleQuery "example.com." 16)
      ⟨"example.com.", 16, ClassINET⟩ [] rfl).1 (by decide),
    (withMapping_no_write (some 0) exampleNext exampleWorld (exampleQuery "example.com." TypeA)
      ⟨"example.com.", TypeA, ClassINET⟩ [] rfl).2.1 (Or.inl rfl) none "next was called"
      { exampleWorld with now := 6 } rfl⟩

end Mapping

/-! ## The terminal resolver handler -/

section Terminal

variable {σ : Type}

theorem withResolver_no6 (resolver : Resolver σ) (w : World σ) (r : Msg) (q : Question)
    (qs : List Question) (hq : r.Question = q :: qs) (h6 : resolver.ipv6 = false)
    (hA : q.Qtype = TypeAAAA) :
    withResolver resolver w r =
      (Result.ret (some (handleMsgWithEmptyAnswer r)) none, w.SetType DNSType.DNSTypeRaw) := by
  simp [withResolver, hq, h6, hA]

theorem withResolver_err (resolver : Resolver σ) (w : World σ) (r : Msg) (q : Question)
    (qs : List Question) (m : Option Msg) (e : Error) (now1 : Time) (ext1 : σ)
    (hq : r.Question = q :: qs) (hv : resolver.ipv6 = true ∨ q.Qtype ≠ TypeAAAA)
    (hex : resolver.ExchangeContext r (w.now, w.ext) = ((m, some e), (now1, ext1))) :
    withResolver resolver w r =
      (Result.ret m (some e), { w.SetType DNSType.DNSTypeRaw with now := now1, ext := ext1 }) := by
  have hex2 : resolver.ExchangeContext r
      ((w.SetType DNSType.DNSTypeRaw).now, (w.SetType DNSType.DNSTypeRaw).ext) =
      ((m, some e), (now1, ext1)) := hex
  rcases hv with hv | hv <;> simp [withResolver, hq, hv, hex2]

theorem withResolver_ok (resolver : Resolver σ) (w : World σ) (r : Msg) (q : Question)
    (qs : List Question) (m : Msg) (now1 : Time) (ext1 : σ)
    (hq : r.Question = q :: qs) (hv : resolver.ipv6 = true ∨ q.Qtype ≠ TypeAAAA)
    (hex : resolver.ExchangeContext r (w.now, w.ext) = ((some m, none), (now1, ext1))) :
    withResolver resolver w r =
      (Result.ret (some { m.SetRcode r m.Rcode with Authoritative := true }) none,
        { w.SetType DNSType.DNSTypeRaw with now := now1, ext := ext1 }) := by
  have hex2 : resolver.ExchangeContext r
      ((w.SetType DNSType.DNSTypeRaw).now, (w.SetType DNSType.DNSTypeRaw).ext) =
      ((some m, none), (now1, ext1)) := hex
  rcases hv with hv | hv <;> simp [withResolver, hq, hv, hex2]

theorem withResolver_nil (resolver : Resolver σ) (w : World σ) (r : Msg) (q : Question)
    (qs : List Question) (now1 : Time) (ext1 : σ)
    (hq : r.Question = q :: qs) (hv : resolver.ipv6 = true ∨ q.Qtype ≠ TypeAAAA)
    (hex : resolver.ExchangeContext r (w.now, w.ext) = ((none, none), (now1, ext1))) :
    withResolver resolver w r =
      (Result.panic, { w.SetType DNSType.DNSTypeRaw with now := now1, ext := ext1 }) := by
  have hex2 : resolver.ExchangeContext r
      ((w.SetType DNSType.DNSTypeRaw).now, (w.SetType DNSType.DNSTypeRaw).ext) =
      ((none, none), (now1, ext1)) := hex
  rcases hv with hv | hv <;> simp [withResolver, hq, hv, hex2]

/-- `SetRcode` leaves the record sections of the message alone and sets the
result code it is given. -/
theorem SetRcode_sections (dns request : Msg) (rcode : Nat) :
    (dns.SetRcode request rcode).Answer = dns.Answer ∧
    (dns.SetRcode request rcode).Ns = dns.Ns ∧
    (dns.SetRcode request rcode).Extra = dns.Extra ∧
    (dns.SetRcode request rcode).Rcode = rcode := by
  unfold Msg.SetRcode Msg.SetReply
  refine ⟨?_, ?_, ?_, rfl⟩ <;> (dsimp only; split <;> split <;> rfl)

/-- The terminal handler writes the resolution kind Raw once, whatever
happens next, and writes nothing to the cache. -/
theorem withResolver_logs (resolver : Resolver σ) (w : World σ) (r : Msg) :
    (withResolver resolver w r).2.ctx.tp = DNSType.DNSTypeRaw ∧
    (withResolver resolver w r).2.typeWrites = w.typeWrites ++ [DNSType.DNSTypeRaw] ∧
    (withResolver resolver w r).2.cacheWrites = w.cacheWrites := by
  unfold withResolver
  dsimp only
  split
  · exact ⟨rfl, rfl, rfl⟩
  · split
    · exact ⟨rfl, rfl, rfl⟩
    · split <;> exact ⟨rfl, rfl, rfl⟩

/-- C15: on a request for which the terminal handler performs the upstream
exchange (IPv6 enabled, or a query type other than AAAA), the exchange is
applied once, to the request as received and the clock and transport state of
the call, and its clock and state are those the handler leaves.  If the
exchange fails with error `e` and message `m` (possibly absent), the handler
returns exactly `m` and `e`.  If it succeeds with message `m`, the handler
returns, with no error, a message with the answer records of `m`, the result
code of `m`, and authoritative set.  In every case the resolution kind is Raw,
written once, and the cache is not written. -/
theorem withResolver_exchange (resolver : Resolver σ) (w : World σ) (r : Msg) (q : Question)
    (qs : List Question) (hq : r.Question = q :: qs)
    (hv : resolver.ipv6 = true ∨ q.Qtype ≠ TypeAAAA) :
    (∀ (m : Option Msg) (e : Error) (now1 : Time) (ext1 : σ),
      resolver.ExchangeContext r (w.now, w.ext) = ((m, some e), (now1, ext1)) →
      (withResolver resolver w r).1 = Result.ret m (some e)) ∧
    (∀ (m : Msg) (now1 : Time) (ext1 : σ),
      resolver.ExchangeContext r (w.now, w.ext) = ((some m, none), (now1, ext1)) →
      ∃ msg : Msg, (withResolver resolver w r).1 = Result.ret (some msg) none ∧
        msg.Answer = m.Answer ∧ msg.Rcode = m.Rcode ∧ msg.Authoritative = true) ∧
    ((withResolver resolver w r).2.now, (withResolver resolver w r).2.ext) =
      (resolver.ExchangeContext r (w.now, w.ext)).2 ∧
    (withResolver resolver w r).2.ctx.tp = DNSType.DNSTypeRaw ∧
    (withResolver resolver w r).2.typeWrites = w.typeWrites ++ [DNSType.DNSTypeRaw] ∧
    (withResolver resolver w r).2.cacheWrites = w.cacheWrites := by
  refine ⟨fun m e now1 ext1 hex => ?_, fun m now1 ext1 hex => ?_, ?_,
    withResolver_logs resolver w r⟩
  · rw [withResolver_err resolver w r q qs m e now1 ext1 hq hv hex]
  · rw [withResolver_ok resolver w r q qs m now1 ext1 hq hv hex]
    obtain ⟨h1, -, -, h4⟩ := SetRcode_sections m r m.Rcode
    exact ⟨_, rfl, h1, h4, rfl⟩
  · rcases hex : resolver.ExchangeContext r (w.now, w.ext) with ⟨⟨m, e⟩, now1, ext1⟩
    cases e with
    | some e => rw [withResolver_err resolver w r q qs m e now1 ext1 hq hv hex]
    | none =>
      cases m with
      | none => rw [withResolver_nil resolver w r q qs now1 ext1 hq hv hex]
      | some m => rw [withResolver_ok resolver w r q qs m now1 ext1 hq hv hex]

/-- Witness of C15: the example upstream answers the A query for
`example.com.` at clock 5 with one record of TTL 300 and leaves the clock at
7; the handler returns that record with authoritative set, and leaves the
clock at 7. -/
theorem withResolver_exchange_witness :
    (∃ msg : Msg,
      (withResolver (exampleResolver none) exampleWorld
        (exampleQuery "example.com." TypeA)).1 = Result.ret (some msg) none ∧
      msg.Answer =
        [RR.A { Name := "upstream.", Rrtype := 1, Class := 1, Ttl := 300 } [10, 0, 0, 1]] ∧
      msg.Rcode = 0 ∧ msg.Authoritative = true) ∧
    ((withResolver (exampleResolver none) exampleWorld
        (exampleQuery "example.com." TypeA)).2.now,
      (withResolver (exampleResolver none) exampleWorld
        (exampleQuery "example.com." TypeA)).2.ext) = (7, 0) :=
  ⟨(withResolver_exchange (exampleResolver none) exampleWorld
      (exampleQuery "example.com." TypeA) ⟨"example.com.", TypeA, ClassINET⟩ [] rfl
      (Or.inl rfl)).2.1
      { Id := 7, Response := true,
        Question := [{ Name := "example.com.", Qtype := TypeA, Qclass := ClassINET }],
        Answer := [RR.A { Name := "upstream.", Rrtype := TypeA, Class := ClassINET, Ttl := 300 }
          [10, 0, 0, 1]] }
      7 0 rfl,
    (withResolver_exchange (exampleResolver none) exampleWorld
      (exampleQuery "example.com." TypeA) ⟨"example.com.", TypeA, ClassINET⟩ [] rfl
      (Or.inl rfl)).2.2.1⟩

/-- In Normal mode the chain is the hosts unit, when there is a host table,
around the terminal handler. -/
theorem NewHandler_normal_mode (ttl : Nat) (resolver : Resolver σ) (mapper : ResolverEnhancer σ)
    (hm : mapper.mode = DNSMode.DNSNormal) :
    NewHandler ttl resolver mapper =
      (match resolver.hosts with
        | some hosts => withHosts hosts mapper.mapping
        | none => id) (withResolver resolver) := by
  rw [NewHandler_eq_nested, hm]
  simp

/-- C14: for a handler built by `NewHandler` in Normal mode with IPv6
disabled, and a request whose first question is of type AAAA and whose
stripped name has no entry in the host table (or with no host table): the
result is, with no error, the empty-answer response for the request (the same
question, zero answers, result code success, authoritative and
recursion-available set); it is the same for every resolver with the same
flag and host table, whatever its upstream exchange is, which is not invoked;
the resolution kind is Raw, and clock and transport state are untouched. -/
theorem NewHandler_normal_no6 (ttl : Nat) (resolver : Resolver σ) (mapper : ResolverEnhancer σ)
    (w : World σ) (r : Msg) (q : Question) (qs : List Question)
    (hm : mapper.mode = DNSMode.DNSNormal) (h6 : resolver.ipv6 = false)
    (hq : r.Question = q :: qs) (hA : q.Qtype = TypeAAAA)
    (hh : ∀ hosts : DomainTrie, resolver.hosts = some hosts →
      hosts.Search (TrimRight q.Name ".") = none) :
    NewHandler ttl resolver mapper w r =
      (Result.ret (some (handleMsgWithEmptyAnswer r)) none, w.SetType DNSType.DNSTypeRaw) ∧
    (∀ resolver2 : Resolver σ, resolver2.ipv6 = resolver.ipv6 →
      resolver2.hosts = resolver.hosts →
      NewHandler ttl resolver2 mapper w r = NewHandler ttl resolver mapper w r) ∧
    (handleMsgWithEmptyAnswer r).Question = [q] ∧
    (handleMsgWithEmptyAnswer r).Answer = [] ∧
    (handleMsgWithEmptyAnswer r).Rcode = RcodeSuccess ∧
    (handleMsgWithEmptyAnswer r).Authoritative = true ∧
    (handleMsgWithEmptyAnswer r).RecursionAvailable = true ∧
    (NewHandler ttl resolver mapper w r).2.ctx.tp = DNSType.DNSTypeRaw ∧
    (NewHandler ttl resolver mapper w r).2.now = w.now ∧
    (NewHandler ttl resolver mapper w r).2.ext = w.ext := by
  have key : ∀ res : Resolver σ, res.ipv6 = false →
      (∀ hosts : DomainTrie, res.hosts = some hosts →
        hosts.Search (TrimRight q.Name ".") = none) →
      NewHandler ttl res mapper w r =
        (Result.ret (some (handleMsgWithEmptyAnswer r)) none,
          w.SetType DNSType.DNSTypeRaw) := by
    intro res h6r hhr
    rw [NewHandler_normal_mode ttl res mapper hm]
    cases hhosts : res.hosts with
    | none => exact withResolver_no6 res w r q qs hq h6r hA
    | some hosts =>
      show withHosts hosts mapper.mapping (withResolver res) w r = _
      rw [withHosts_miss hosts mapper.mapping _ w r q qs hq (hhr hosts hhosts)]
      exact withResolver_no6 res w r q qs hq h6r hA
  obtain ⟨h1, h2, h3, h4, h5, -, -⟩ := handleMsgWithEmptyAnswer_fields r q qs hq
  refine ⟨key resolver h6 hh, fun resolver2 h62 hh2 => ?_, h1, h2, h3, h4, h5, ?_, ?_, ?_⟩
  · rw [key resolver h6 hh, key resolver2 (h62.trans h6) (fun hosts hr => hh hosts (hh2 ▸ hr))]
  · rw [key resolver h6 hh]; rfl
  · rw [key resolver h6 hh]; rfl
  · rw [key resolver h6 hh]; rfl

/-- Witness of C14: Normal mode, IPv6 disabled, the table
`router.lan -> 192.168.1.1`; the AAAA query for `example.com.` gets the empty
answer and the kind Raw, and the clock stays at 5. -/
theorem NewHandler_normal_no6_witness :
    NewHandler 600 (exampleResolverNo6 (some exampleHosts)) (exampleMapper DNSMode.DNSNormal)
        exampleWorld (exampleQuery "example.com." TypeAAAA) =
      (Result.ret (some {
        Id := 7, Response := true, RecursionDesired := true, Authoritative := true,
        RecursionAvailable := true, Rcode := 0,
        Question := [{ Name := "example.com.", Qtype := 28, Qclass := 1 }],
        Answer := [] }) none,
      { exampleWorld with typeWrites := [DNSType.DNSTypeRaw] }) :=
  (NewHandler_normal_no6 600 (exampleResolverNo6 (some exampleHosts))
    (exampleMapper DNSMode.DNSNormal) exampleWorld (exampleQuery "example.com." TypeAAAA)
    ⟨"example.com.", TypeAAAA, ClassINET⟩ [] rfl rfl rfl rfl
    (fun hosts h => by
      cases h
      decide)).1

end Terminal

/-! ## The mapping middleware in the assembled pipeline -/

section MappingPipeline

variable {σ : Type}

theorem mem_mappingWrites (c : LruCache) (host : String) (now : Time) (answers : List RR)
    (e : CacheWrite) :
    e ∈ mappingWrites c host now answers ↔
      ∃ rr ∈ answers, ∃ ip ttl, answerAddr rr = some (ip, ttl) ∧
        e = { cache := c, key := ip, value := host, expires := now + ttl * Second } := by
  unfold mappingWrites
  rw [List.mem_filterMap]
  constructor
  · rintro ⟨rr, hrr, h⟩
    refine ⟨rr, hrr, ?_⟩
    cases rr with
    | A hdr a => exact ⟨_, _, rfl, (Option.some.inj h).symm⟩
    | AAAA hdr a => exact ⟨_, _, rfl, (Option.some.inj h).symm⟩
    | other hdr d => cases h
  · rintro ⟨rr, hrr, ip, ttl, ha, rfl⟩
    refine ⟨rr, hrr, ?_⟩
    cases rr with
    | A hdr a => cases ha; rfl
    | AAAA hdr a => cases ha; rfl
    | other hdr d => cases ha

/-- After a batch of writes that has one for the key, the entry of the key is
one of the batch. -/
theorem cacheEntry_append (log writes : List CacheWrite) (c : LruCache) (key : Addr)
    (h : ∃ e ∈ writes, e.cache = c ∧ e.key = key) :
    ∃ e ∈ writes, cacheEntry (log ++ writes) c key = some e ∧ e.cache = c ∧ e.key = key := by
  obtain ⟨e0, he0, hc0, hk0⟩ := h
  unfold cacheEntry
  rw [List.reverse_append, List.find?_append]
  have hsome : (writes.reverse.find? fun e => decide (e.cache = c ∧ e.key = key)).isSome := by
    rw [List.find?_isSome]
    exact ⟨e0, List.mem_reverse.2 he0, by simp [hc0, hk0]⟩
  obtain ⟨e, he⟩ := Option.isSome_iff_exists.1 hsome
  refine ⟨e, List.mem_reverse.1 (List.mem_of_find?_eq_some he), by rw [he]; rfl, ?_⟩
  have := List.find?_some he
  simpa using this

/-- The hosts unit, when there is one, passes on a request it has no answer
for. -/
theorem hostsLayer_pass (ho : Option DomainTrie) (mapping : Option LruCache)
    (next : handler σ) (w : World σ) (r : Msg) (q : Question) (qs : List Question)
    (hq : r.Question = q :: qs)
    (hh : ∀ hosts : DomainTrie, ho = some hosts →
      hosts.Search (TrimRight q.Name ".") = none ∨
      (q.Qtype = TypeA ∧
        ∃ ip, hosts.Search (TrimRight q.Name ".") = some ip ∧ ip.Is4 = false)) :
    (match ho with
      | some hosts => withHosts hosts mapping
      | none => id) next w r = next w r := by
  cases ho with
  | none => rfl
  | some hosts =>
    rcases hh hosts rfl with h | ⟨hA, ip, hs, h4⟩
    · exact withHosts_miss hosts mapping next w r q qs hq h
    · exact withHosts_A_not4 hosts mapping next w r q qs ip hq hs hA h4

/-- In a mode other than Normal, a request that the hosts unit does not
answer and whose name, in FakeIP mode, the pool skips, reaches the mapping
middleware around the terminal handler. -/
theorem NewHandler_reaches_mapping (ttl : Nat) (resolver : Resolver σ)
    (mapper : ResolverEnhancer σ) (w : World σ) (r : Msg) (q : Question) (qs : List Question)
    (hm : mapper.mode ≠ DNSMode.DNSNormal) (hq : r.Question = q :: qs)
    (hh : ∀ hosts : DomainTrie, resolver.hosts = some hosts →
      hosts.Search (TrimRight q.Name ".") = none ∨
      (q.Qtype = TypeA ∧
        ∃ ip, hosts.Search (TrimRight q.Name ".") = some ip ∧ ip.Is4 = false))
    (hf : mapper.mode = DNSMode.DNSFakeIP →
      mapper.fakePool.ShouldSkipped (TrimRight q.Name ".") = true) :
    NewHandler ttl resolver mapper w r =
      withMapping mapper.mapping (withResolver resolver) w r := by
  rw [NewHandler_eq_nested]
  refine (hostsLayer_pass resolver.hosts mapper.mapping _ w r q qs hq hh).trans ?_
  cases hmode : mapper.mode with
  | DNSNormal => exact absurd hmode hm
  | DNSFakeIP =>
    simp only [if_true, ne_eq, not_false_eq_true, reduceCtorEq]
    exact withFakeIP_skipped ttl mapper.fakePool _ w r q qs hq (hf hmode)
  | DNSMapping => simp

/-- The address read back from the 4-byte form of an IPv4 address is that
address. -/
theorem IpToAddr_AsSlice_of_Is4 (ip : Addr) (h4 : ip.Is4 = true) : IpToAddr ip.AsSlice = ip := by
  cases ip with
  | zero => cases h4
  | ip4 a b c d => rfl
  | ip6 bytes zone => cases h4

/-- The entry of a key right after a single write for it is that write. -/
theorem cacheEntry_append_single (log : List CacheWrite) (e : CacheWrite) :
    cacheEntry (log ++ [e]) e.cache e.key = some e := by
  obtain ⟨e1, he1, hentry, -, -⟩ := cacheEntry_append log [e] e.cache e.key
    ⟨e, List.mem_singleton.2 rfl, rfl, rfl⟩
  rw [List.mem_singleton.1 he1] at hentry
  exact hentry

/-- C12, as the code has it: for a handler built by `NewHandler` with a mode
other than Normal and the mapping cache `c`, and an address query.
(a) When the hosts middleware answers it with the stored address `ip` itself
(an A record from an IPv4 entry, or an AAAA record from an IPv6 entry whose
16-byte form reads back as `ip`), right after the call the cache holds for
`ip` an entry that maps it to the stripped name of the query, whose expiry is
no earlier than the time of the call and no later than that time plus the TTL
of the record, 10 seconds.
(b) When the query reaches the mapping middleware (the hosts middleware has no
answer for it, and in FakeIP mode its stripped name is skipped by the pool)
and the upstream answers with message `m` and no error at clock `now1`, the
response carries the answer records of `m`, and right after the call the cache
holds for the address of each A or AAAA record of `m` an entry that maps it
to the stripped name of the query; its expiry is no earlier than `now1` plus
the TTL of a returned record with that address, and no later than the clock at
which the call returns plus that TTL; it is no earlier than the time of the
call when the clock did not go back during the exchange; and when all returned
records with that address carry one TTL, the bounds hold with the TTL of the
record. -/
theorem NewHandler_mapping_entries (ttl : Nat) (resolver : Resolver σ)
    (mapper : ResolverEnhancer σ) (c : LruCache) (w : World σ) (r : Msg) (q : Question)
    (qs : List Question)
    (hm : mapper.mode ≠ DNSMode.DNSNormal) (hc : mapper.mapping = some c)
    (hq : r.Question = q :: qs) (ht : q.Qtype = TypeA ∨ q.Qtype = TypeAAAA) :
    (∀ (hosts : DomainTrie) (ip : Addr), resolver.hosts = some hosts →
      hosts.Search (TrimRight q.Name ".") = some ip →
      ((q.Qtype = TypeA ∧ ip.Is4 = true) ∨ (q.Qtype = TypeAAAA ∧ IpToAddr ip.As16 = ip)) →
      ∃ (msg : Msg) (rr : RR),
        (NewHandler ttl resolver mapper w r).1 = Result.ret (some msg) none ∧
        msg.Answer = [rr] ∧ answerAddr rr = some (ip, 10) ∧
        ∃ e : CacheWrite,
          cacheEntry (NewHandler ttl resolver mapper w r).2.cacheWrites c ip = some e ∧
          e.value = TrimRight q.Name "." ∧
          w.now ≤ e.expires ∧ e.expires ≤ w.now + 10 * Second) ∧
    (∀ (m : Msg) (now1 : Time) (ext1 : σ),
      (∀ hosts : DomainTrie, resolver.hosts = some hosts →
        hosts.Search (TrimRight q.Name ".") = none ∨
        (q.Qtype = TypeA ∧
          ∃ ip, hosts.Search (TrimRight q.Name ".") = some ip ∧ ip.Is4 = false)) →
      (mapper.mode = DNSMode.DNSFakeIP →
        mapper.fakePool.ShouldSkipped (TrimRight q.Name ".") = true) →
      (resolver.ipv6 = true ∨ q.Qtype ≠ TypeAAAA) →
      resolver.ExchangeContext r (w.now, w.ext) = ((some m, none), (now1, ext1)) →
      (∃ msg : Msg,
        (NewHandler ttl resolver mapper w r).1 = Result.ret (some msg) none ∧
        msg.Answer = m.Answer) ∧
      ∀ rr ∈ m.Answer, ∀ (ip : Addr) (ttl0 : Nat), answerAddr rr = some (ip, ttl0) →
        ∃ e : CacheWrite,
          cacheEntry (NewHandler ttl resolver mapper w r).2.cacheWrites c ip = some e ∧
          e.value = TrimRight q.Name "." ∧
          (∃ rr2 ∈ m.Answer, ∃ ttl2 : Nat, answerAddr rr2 = some (ip, ttl2) ∧
            now1 + ttl2 * Second ≤ e.expires ∧
            e.expires ≤ (NewHandler ttl resolver mapper w r).2.now + ttl2 * Second) ∧
          (w.now ≤ now1 → w.now ≤ e.expires) ∧
          ((∀ rr3 ∈ m.Answer, ∀ t : Nat, answerAddr rr3 = some (ip, t) → t = ttl0) →
            now1 + ttl0 * Second ≤ e.expires ∧
            e.expires ≤ (NewHandler ttl resolver mapper w r).2.now + ttl0 * Second)) := by
  constructor
  · intro hosts ip hh hs hret
    have hit : (q.Qtype = TypeA ∧ ip.Is4 = true) ∨ q.Qtype = TypeAAAA :=
      hret.elim Or.inl (fun h => Or.inr h.1)
    rw [NewHandler_with_hosts ttl resolver mapper hosts hh,
      withHosts_hit hosts mapper.mapping _ w r q qs ip hq hs hit, hc]
    refine ⟨_, _, rfl, rfl, ?_, ?_⟩
    · rcases hret with ⟨hA, h4⟩ | ⟨h6, hip⟩
      · rw [if_pos hA]
        show some (IpToAddr ip.AsSlice, 10) = some (ip, 10)
        rw [IpToAddr_AsSlice_of_Is4 ip h4]
      · have hnA : ¬ q.Qtype = TypeA := by rw [h6]; decide
        rw [if_neg hnA]
        show some (IpToAddr ip.As16, 10) = some (ip, 10)
        rw [hip]
    · refine ⟨CacheWrite.mk c ip (TrimRight q.Name ".") (w.now + Second * 10), ?_, rfl,
        Nat.le_add_right _ _, ?_⟩
      · exact cacheEntry_append_single w.cacheWrites
          (CacheWrite.mk c ip (TrimRight q.Name ".") (w.now + Second * 10))
      · show w.now + Second * 10 ≤ w.now + 10 * Second
        rw [Nat.mul_comm]
  · intro m now1 ext1 hh hf hv hex
    have hrun : NewHandler ttl resolver mapper w r =
        (Result.ret (some { m.SetRcode r m.Rcode with Authoritative := true }) none,
          { w.SetType DNSType.DNSTypeRaw with
            now := now1, ext := ext1,
            cacheWrites := w.cacheWrites ++ mappingWrites c (TrimRight q.Name ".") now1
              ({ m.SetRcode r m.Rcode with Authoritative := true } : Msg).Answer }) := by
      rw [NewHandler_reaches_mapping ttl resolver mapper w r q qs hm hq hh hf, hc,
        withMapping_ok c (withResolver resolver) w _ r q qs _ hq ht
          (withResolver_ok resolver w r q qs m now1 ext1 hq hv hex)]
      rfl
    have hans : ({ m.SetRcode r m.Rcode with Authoritative := true } : Msg).Answer = m.Answer :=
      (SetRcode_sections m r m.Rcode).1
    rw [hans] at hrun
    rw [hrun]
    refine ⟨⟨_, rfl, hans⟩, fun rr hrr ip ttl0 ha => ?_⟩
    obtain ⟨e, he, hentry, -, -⟩ := cacheEntry_append w.cacheWrites
      (mappingWrites c (TrimRight q.Name ".") now1 m.Answer) c ip
      ⟨_, (mem_mappingWrites c _ now1 m.Answer _).2 ⟨rr, hrr, ip, ttl0, ha, rfl⟩, rfl, rfl⟩
    obtain ⟨rr2, hrr2, ip2, ttl2, ha2, rfl⟩ := (mem_mappingWrites c _ now1 m.Answer e).1 he
    have hkey : ip2 = ip := by
      have := List.find?_some (show List.find? _ _ = some _ from hentry)
      simpa using this
    subst hkey
    refine ⟨_, hentry, rfl, ⟨rr2, hrr2, ttl2, ha2, Nat.le_refl _, Nat.le_refl _⟩,
      fun hmono => Nat.le_trans hmono (Nat.le_add_right _ _), fun hall => ?_⟩
    have : ttl2 = ttl0 := hall rr2 hrr2 ttl2 ha2
    subst this
    exact ⟨Nat.le_refl _, Nat.le_refl _⟩

/-- Witness of C12 as amended.  (a) In FakeIP mode with the table
`router.lan -> 192.168.1.1`, the A query for `router.lan.` at clock 5 is
answered from the table and the cache holds `192.168.1.1 -> router.lan` with
expiry between 5 and 5 + 10 s.  (b) In the other enhanced mode, with no host
table, the A query for `example.com.` at clock 5 is answered by the upstream
at clock 7 with the record `10.0.0.1` of TTL 300, and the cache holds
`10.0.0.1 -> example.com` with expiry between 7 + 300 s and the clock of the
return + 300 s. -/
theorem NewHandler_mapping_entries_witness :
    (∃ (msg : Msg) (rr : RR),
      (NewHandler 600 (exampleResolver (some exampleHosts)) (exampleMapper DNSMode.DNSFakeIP)
        exampleWorld (exampleQuery "router.lan." TypeA)).1 = Result.ret (some msg) none ∧
      msg.Answer = [rr] ∧ answerAddr rr = some (Addr.ip4 192 168 1 1, 10) ∧
      ∃ e : CacheWrite,
        cacheEntry (NewHandler 600 (exampleResolver (some exampleHosts))
          (exampleMapper DNSMode.DNSFakeIP) exampleWorld
          (exampleQuery "router.lan." TypeA)).2.cacheWrites 0 (Addr.ip4 192 168 1 1) = some e ∧
        e.value = "router.lan" ∧ 5 ≤ e.expires ∧ e.expires ≤ 5 + 10 * Second) ∧
    (∃ e : CacheWrite,
      cacheEntry (NewHandler 600 (exampleResolver none) (exampleMapper DNSMode.DNSMapping)
        exampleWorld (exampleQuery "example.com." TypeA)).2.cacheWrites 0
        (Addr.ip4 10 0 0 1) = some e ∧
      e.value = "example.com" ∧
      ∃ rr2 ∈ [RR.A { Name := "upstream.", Rrtype := TypeA, Class := ClassINET, Ttl := 300 }
          [10, 0, 0, 1]],
        ∃ ttl2 : Nat,
          answerAddr rr2 = some (Addr.ip4 10 0 0 1, ttl2) ∧
          7 + ttl2 * Second ≤ e.expires ∧
          e.expires ≤
            (NewHandler 600 (exampleResolver none) (exampleMapper DNSMode.DNSMapping)
              exampleWorld (exampleQuery "example.com." TypeA)).2.now + ttl2 * Second) :=
  ⟨(NewHandler_mapping_entries 600 (exampleResolver (some exampleHosts))
      (exampleMapper DNSMode.DNSFakeIP) 0 exampleWorld (exampleQuery "router.lan." TypeA)
      ⟨"router.lan.", TypeA, ClassINET⟩ [] (by decide) rfl rfl (Or.inl rfl)).1
      exampleHosts (Addr.ip4 192 168 1 1) rfl (by decide) (Or.inl ⟨rfl, rfl⟩),
    let ⟨e, h1, h2, h3, _, _⟩ :=
      ((NewHandler_mapping_entries 600 (exampleResolver none)
        (exampleMapper DNSMode.DNSMapping) 0 exampleWorld (exampleQuery "example.com." TypeA)
        ⟨"example.com.", TypeA, ClassINET⟩ [] (by decide) rfl rfl (Or.inl rfl)).2
        (Msg.mk 7 true 0 false false false false false false false 0 false
          [{ Name := "example.com.", Qtype := TypeA, Qclass := ClassINET }]
          [RR.A { Name := "upstream.", Rrtype := TypeA, Class := ClassINET, Ttl := 300 }
            [10, 0, 0, 1]] [] [])
        7 0 (fun _ h => Option.noConfusion h) (fun h => DNSMode.noConfusion h) (Or.inl rfl)
        rfl).2
        (RR.A { Name := "upstream.", Rrtype := TypeA, Class := ClassINET, Ttl := 300 }
          [10, 0, 0, 1])
        (List.mem_singleton.2 rfl) (Addr.ip4 10 0 0 1) 300 rfl
    ⟨e, h1, h2, h3⟩⟩

/-- Counterexample to C12 as stated, in three requests, each with the mapping
cache `0` and a mode other than Normal.  FakeIP mode, no host table: the A
query for `example.com.`, which the pool does not skip, is answered with the
one A record `198.18.0.2`, and no cache write has been made, so the cache
holds no entry for that address.  The other enhanced mode with the table
`router.lan -> 192.168.1.1`: the AAAA query for `router.lan.` is answered with
the 16-byte address `::ffff:192.168.1.1`, and the cache holds an entry for the
IPv4 address and none for the returned one.  The other enhanced mode, no host
table: the A query for `example.com.` at clock 5 is answered by the upstream
with a record of TTL 300, and the entry expires at 7 + 300 s, later than the
time of the call plus the TTL. -/
theorem NewHandler_mapping_entries_counterexample :
    (exampleMapper DNSMode.DNSFakeIP).mode ≠ DNSMode.DNSNormal ∧
    (exampleMapper DNSMode.DNSFakeIP).mapping = some 0 ∧
    (NewHandler 600 (exampleResolver none) (exampleMapper DNSMode.DNSFakeIP) exampleWorld
      (exampleQuery "example.com." TypeA)).1 =
      Result.ret (some {
        Id := 7, Response := true, RecursionDesired := true, Authoritative := true,
        RecursionAvailable := true,
        Question := [{ Name := "example.com.", Qtype := 1, Qclass := 1 }],
        Answer := [RR.A { Name := "example.com.", Rrtype := 1, Class := 1, Ttl := 1 }
          [198, 18, 0, 2]] }) none ∧
    (NewHandler 600 (exampleResolver none) (exampleMapper DNSMode.DNSFakeIP) exampleWorld
      (exampleQuery "example.com." TypeA)).2.cacheWrites = [] ∧
    cacheEntry (NewHandler 600 (exampleResolver none) (exampleMapper DNSMode.DNSFakeIP)
      exampleWorld (exampleQuery "example.com." TypeA)).2.cacheWrites 0
      (IpToAddr [198, 18, 0, 2]) = none ∧
    (NewHandler 600 (exampleResolver (some exampleHosts)) (exampleMapper DNSMode.DNSMapping)
      exampleWorld (exampleQuery "router.lan." TypeAAAA)).1 =
      Result.ret (some {
        Id := 7, Response := true, RecursionDesired := true, Authoritative := true,
        RecursionAvailable := true,
        Question := [{ Name := "router.lan.", Qtype := 28, Qclass := 1 }],
        Answer := [RR.AAAA { Name := "router.lan.", Rrtype := 28, Class := 1, Ttl := 10 }
          [0, 0, 0, 0, 0, 0, 0, 0, 0, 0, 255, 255, 192, 168, 1, 1]] }) none ∧
    (NewHandler 600 (exampleResolver (some exampleHosts)) (exampleMapper DNSMode.DNSMapping)
      exampleWorld (exampleQuery "router.lan." TypeAAAA)).2.cacheWrites =
      [{ cache := 0, key := Addr.ip4 192 168 1 1, value := "router.lan",
         expires := 10000000005 }] ∧
    cacheEntry (NewHandler 600 (exampleResolver (some exampleHosts))
      (exampleMapper DNSMode.DNSMapping) exampleWorld
      (exampleQuery "router.lan." TypeAAAA)).2.cacheWrites 0
      (IpToAddr [0, 0, 0, 0, 0, 0, 0, 0, 0, 0, 255, 255, 192, 168, 1, 1]) = none ∧
    exampleWorld.now = 5 ∧
    (NewHandler 600 (exampleResolver none) (exampleMapper DNSMode.DNSMapping) exampleWorld
      (exampleQuery "example.com." TypeA)).1 =
      Result.ret (some {
        Id := 7, Response := true, RecursionDesired := true, Authoritative := true,
        Question := [{ Name := "example.com.", Qtype := 1, Qclass := 1 }],
        Answer := [RR.A { Name := "upstream.", Rrtype := 1, Class := 1, Ttl := 300 }
          [10, 0, 0, 1]] }) none ∧
    cacheEntry (NewHandler 600 (exampleResolver none) (exampleMapper DNSMode.DNSMapping)
      exampleWorld (exampleQuery "example.com." TypeA)).2.cacheWrites 0
      (Addr.ip4 10 0 0 1) =
      some { cache := 0, key := Addr.ip4 10 0 0 1, value := "example.com",
             expires := 300000000007 } ∧
    5 + 300 * Second < 300000000007 :=
  ⟨by decide, rfl, by decide, by decide, by decide, by decide, by decide, by decide, rfl,
    by decide, by decide, by decide⟩

end MappingPipeline

/-! ## FakeIP mode: what reaches the mapping middleware -/

section FakeIPMapping

variable {σ : Type}

theorem withHosts_congr (hosts : DomainTrie) (mapping : Option LruCache)
    (next1 next2 : handler σ) (w : World σ) (r : Msg) (h : next1 w r = next2 w r) :
    withHosts hosts mapping next1 w r = withHosts hosts mapping next2 w r := by
  simp only [withHosts, h]

theorem withFakeIP_congr (ttl : Nat) (pool : Pool σ)
    (next1 next2 : handler σ) (w : World σ) (r : Msg) (h : next1 w r = next2 w r) :
    withFakeIP ttl pool next1 w r = withFakeIP ttl pool next2 w r := by
  simp only [withFakeIP, h]

theorem withMapping_congr (mapping : Option LruCache)
    (next1 next2 : handler σ) (w : World σ) (r : Msg) (h : next1 w r = next2 w r) :
    withMapping mapping next1 w r = withMapping mapping next2 w r := by
  simp only [withMapping, h]

theorem withHosts_cases (hosts : DomainTrie) (mapping : Option LruCache) (next : handler σ)
    (w : World σ) (r : Msg) (q : Question) (qs : List Question) (hq : r.Question = q :: qs) :
    withHosts hosts mapping next w r = next w r ∨
    ∃ ip, hosts.Search (TrimRight q.Name ".") = some ip ∧
      ((q.Qtype = TypeA ∧ ip.Is4 = true) ∨ q.Qtype = TypeAAAA) := by
  by_cases ht : q.Qtype = TypeA ∨ q.Qtype = TypeAAAA
  · cases hs : hosts.Search (TrimRight q.Name ".") with
    | none => exact Or.inl (withHosts_miss hosts mapping next w r q qs hq hs)
    | some ip =>
      rcases ht with hA | h6
      · cases h4 : ip.Is4 with
        | false => exact Or.inl (withHosts_A_not4 hosts mapping next w r q qs ip hq hs hA h4)
        | true => exact Or.inr ⟨ip, rfl, Or.inl ⟨hA, h4⟩⟩
      · exact Or.inr ⟨ip, rfl, Or.inr h6⟩
  · exact Or.inl (withHosts_not_ip hosts mapping next w r q qs hq ht)

theorem withFakeIP_drop_mapping (ttl : Nat) (pool : Pool σ) (mapping : Option LruCache)
    (next : handler σ) (w : World σ) (r : Msg) (q : Question) (qs : List Question)
    (hq : r.Question = q :: qs)
    (hskip : pool.ShouldSkipped (TrimRight q.Name ".") = false) :
    withFakeIP ttl pool (withMapping mapping next) w r = withFakeIP ttl pool next w r := by
  by_cases hA : q.Qtype = TypeA
  · rw [withFakeIP_hit ttl pool _ w r q qs hq hA hskip,
      withFakeIP_hit ttl pool _ w r q qs hq hA hskip]
  · by_cases ht : q.Qtype = TypeAAAA ∨ q.Qtype = TypeSVCB ∨ q.Qtype = TypeHTTPS
    · rw [withFakeIP_empty ttl pool _ w r q qs hq hskip ht,
        withFakeIP_empty ttl pool _ w r q qs hq hskip ht]
    · have h4 : q.Qtype ≠ TypeA ∧ q.Qtype ≠ TypeAAAA ∧ q.Qtype ≠ TypeSVCB ∧
          q.Qtype ≠ TypeHTTPS :=
        ⟨hA, fun h => ht (Or.inl h), fun h => ht (Or.inr (Or.inl h)),
          fun h => ht (Or.inr (Or.inr h))⟩
      rw [withFakeIP_other_type ttl pool _ w r q qs hq h4,
        withFakeIP_other_type ttl pool _ w r q qs hq h4]
      exact withMapping_not_ip mapping next w r q qs hq
        (fun h => h.elim hA h4.2.1)

/-- The fake-IP unit around the terminal handler never writes the cache. -/
theorem withFakeIP_resolver_cacheWrites (ttl : Nat) (pool : Pool σ) (resolver : Resolver σ)
    (w : World σ) (r : Msg) (q : Question) (qs : List Question)
    (hq : r.Question = q :: qs)
    (hskip : pool.ShouldSkipped (TrimRight q.Name ".") = false) :
    (withFakeIP ttl pool (withResolver resolver) w r).2.cacheWrites = w.cacheWrites := by
  by_cases hA : q.Qtype = TypeA
  · rw [withFakeIP_hit ttl pool _ w r q qs hq hA hskip]; rfl
  · by_cases ht : q.Qtype = TypeAAAA ∨ q.Qtype = TypeSVCB ∨ q.Qtype = TypeHTTPS
    · rw [withFakeIP_empty ttl pool _ w r q qs hq hskip ht]
    · have h4 : q.Qtype ≠ TypeA ∧ q.Qtype ≠ TypeAAAA ∧ q.Qtype ≠ TypeSVCB ∧
          q.Qtype ≠ TypeHTTPS :=
        ⟨hA, fun h => ht (Or.inl h), fun h => ht (Or.inr (Or.inl h)),
          fun h => ht (Or.inr (Or.inr h))⟩
      rw [withFakeIP_other_type ttl pool _ w r q qs hq h4]
      exact (withResolver_logs resolver w r).2.2

/-- C19: in a pipeline built by `NewHandler` with mode FakeIP, for a request
whose stripped name the pool does not skip, the mapping middleware makes no
cache write: the pipeline yields exactly what the same chain without
`withMapping` yields.  The only cache write the call can make is the one of
the hosts middleware for a host-table entry; and when the fake-IP middleware
answers an A query (no IPv4 host entry for the name), the response carries the
fake address and the call makes no cache write at all. -/
theorem NewHandler_fakeip_mapping_silent (ttl : Nat) (resolver : Resolver σ)
    (mapper : ResolverEnhancer σ) (w : World σ) (r : Msg) (q : Question) (qs : List Question)
    (hm : mapper.mode = DNSMode.DNSFakeIP) (hq : r.Question = q :: qs)
    (hskip : mapper.fakePool.ShouldSkipped (TrimRight q.Name ".") = false) :
    NewHandler ttl resolver mapper w r =
      (match resolver.hosts with
        | some hosts => withHosts hosts mapper.mapping
        | none => id) (withFakeIP ttl mapper.fakePool (withResolver resolver)) w r ∧
    ((NewHandler ttl resolver mapper w r).2.cacheWrites = w.cacheWrites ∨
      ∃ (hosts : DomainTrie) (ip : Addr) (c : LruCache),
        resolver.hosts = some hosts ∧ mapper.mapping = some c ∧
        hosts.Search (TrimRight q.Name ".") = some ip ∧
        (NewHandler ttl resolver mapper w r).2.cacheWrites =
          w.cacheWrites ++
            [{ cache := c, key := ip, value := TrimRight q.Name ".",
               expires := w.now + 10 * Second }]) ∧
    (q.Qtype = TypeA →
      (∀ (hosts : DomainTrie) (ip : Addr), resolver.hosts = some hosts →
        hosts.Search (TrimRight q.Name ".") = some ip → ip.Is4 = false) →
      (∃ msg : Msg, (NewHandler ttl resolver mapper w r).1 = Result.ret (some msg) none ∧
        msg.Answer =
          [RR.A { Name := q.Name, Rrtype := TypeA, Class := ClassINET, Ttl := 1 }
            (mapper.fakePool.Lookup (TrimRight q.Name ".") w.ext).1.AsSlice]) ∧
      (NewHandler ttl resolver mapper w r).2.cacheWrites = w.cacheWrites) := by
  have hdrop := withFakeIP_drop_mapping ttl mapper.fakePool mapper.mapping (withResolver resolver)
    w r q qs hq hskip
  have hquiet := withFakeIP_resolver_cacheWrites ttl mapper.fakePool resolver w r q qs hq hskip
  have hrun : NewHandler ttl resolver mapper w r =
      (match resolver.hosts with
        | some hosts => withHosts hosts mapper.mapping
        | none => id) (withFakeIP ttl mapper.fakePool (withResolver resolver)) w r := by
    rw [NewHandler_fakeip_mode ttl resolver mapper hm]
    cases resolver.hosts with
    | none => exact hdrop
    | some hosts => exact withHosts_congr hosts mapper.mapping _ _ w r hdrop
  refine ⟨hrun, ?_, fun hA hh => ?_⟩
  · rw [hrun]
    cases hhosts : resolver.hosts with
    | none => exact Or.inl hquiet
    | some hosts =>
      show (withHosts hosts mapper.mapping _ w r).2.cacheWrites = w.cacheWrites ∨ _
      rcases withHosts_cases hosts mapper.mapping
          (withFakeIP ttl mapper.fakePool (withResolver resolver)) w r q qs hq with
        hpass | ⟨ip, hs, ht⟩
      · rw [hpass]; exact Or.inl hquiet
      · rw [withHosts_hit hosts mapper.mapping _ w r q qs ip hq hs ht]
        cases hc : mapper.mapping with
        | none => exact Or.inl rfl
        | some c =>
          refine Or.inr ⟨hosts, ip, c, rfl, rfl, hs, ?_⟩
          show (withHosts hosts (some c) _ w r).2.cacheWrites = _
          rw [withHosts_hit hosts (some c) _ w r q qs ip hq hs ht]
          simp [World.SetType, World.SetWithExpire, Nat.mul_comm]
  · have hpass : NewHandler ttl resolver mapper w r =
        withFakeIP ttl mapper.fakePool (withResolver resolver) w r := by
      rw [hrun]
      exact hostsLayer_pass resolver.hosts mapper.mapping _ w r q qs hq
        (fun hosts hr => by
          cases hs : hosts.Search (TrimRight q.Name ".") with
          | none => exact Or.inl rfl
          | some ip => exact Or.inr ⟨hA, ip, rfl, hh hosts ip hr hs⟩)
    rw [hpass]
    refine ⟨?_, hquiet⟩
    rw [withFakeIP_hit ttl mapper.fakePool _ w r q qs hq hA hskip]
    exact ⟨_, rfl, rfl⟩

/-- Witness of C19: FakeIP mode with the cache `0` and no host table; the A
query for `example.com.` gets the fake address `198.18.0.2` and the log of
cache writes stays empty. -/
theorem NewHandler_fakeip_mapping_silent_witness :
    (∃ msg : Msg,
      (NewHandler 600 (exampleResolver none) (exampleMapper DNSMode.DNSFakeIP) exampleWorld
        (exampleQuery "example.com." TypeA)).1 = Result.ret (some msg) none ∧
      msg.Answer =
        [RR.A { Name := "example.com.", Rrtype := 1, Class := 1, Ttl := 1 }
          [198, 18, 0, 2]]) ∧
    (NewHandler 600 (exampleResolver none) (exampleMapper DNSMode.DNSFakeIP) exampleWorld
      (exampleQuery "example.com." TypeA)).2.cacheWrites = [] :=
  (NewHandler_fakeip_mapping_silent 600 (exampleResolver none)
    (exampleMapper DNSMode.DNSFakeIP) exampleWorld (exampleQuery "example.com." TypeA)
    ⟨"example.com.", TypeA, ClassINET⟩ [] rfl rfl (by decide)).2.2 rfl
    (fun _ _ h => Option.noConfusion h)

end FakeIPMapping

/-! ## The lookup key -/

section Key

theorem rdropWhile_split {α : Type} (p : α → Bool) (l : List α) :
    l = l.rdropWhile p ++ (l.reverse.takeWhile p).reverse ∧
    ∀ x ∈ (l.reverse.takeWhile p).reverse, p x = true := by
  constructor
  · have h := List.takeWhile_append_dropWhile p l.reverse
    have h2 := congrArg List.reverse h
    rw [List.reverse_append, List.reverse_reverse] at h2
    exact h2.symm
  · intro x hx
    exact List.mem_takeWhile_imp (List.mem_reverse.1 hx)

theorem dot_cutset (c : Char) : (".".data.contains c) = true ↔ c = '.' := by
  show (['.'].contains c) = true ↔ c = '.'
  simp

theorem TrimRight_data (n : String) :
    (TrimRight n ".").data = n.data.rdropWhile (fun c => ".".data.contains c) := rfl

theorem TrimRight_not_dot_last (n : String) : (TrimRight n ".").data.getLast? ≠ some '.' := by
  rw [TrimRight_data]
  intro h
  have hne : n.data.rdropWhile (fun c => ".".data.contains c) ≠ [] := by
    intro h0; rw [h0] at h; cases h
  have hl := List.rdropWhile_last_not (fun c => ".".data.contains c) n.data hne
  rw [List.getLast?_eq_getLast _ hne] at h
  rw [Option.some.inj h] at hl
  exact hl ((dot_cutset '.').2 rfl)

theorem TrimRight_suffix (n : String) :
    ∃ k : Nat, n = TrimRight n "." ++ String.mk (List.replicate k '.') := by
  obtain ⟨h1, h2⟩ := rdropWhile_split (fun c => ".".data.contains c) n.data
  refine ⟨((n.data.reverse.takeWhile (fun c => ".".data.contains c)).reverse).length, ?_⟩
  apply String.ext
  rw [String.data_append, TrimRight_data]
  have hrep : (n.data.reverse.takeWhile (fun c => ".".data.contains c)).reverse =
      List.replicate ((n.data.reverse.takeWhile (fun c => ".".data.contains c)).reverse).length
        '.' :=
    List.eq_replicate_iff.2 ⟨rfl, fun x hx => (dot_cutset x).1 (h2 x hx)⟩
  rw [← hrep]
  exact h1

theorem TrimRight_idem (n : String) : TrimRight (TrimRight n ".") "." = TrimRight n "." := by
  apply String.ext
  rw [TrimRight_data, TrimRight_data, List.rdropWhile_idempotent]

theorem TrimRight_append_dot (n : String) : TrimRight (n ++ ".") "." = TrimRight n "." := by
  apply String.ext
  rw [TrimRight_data, TrimRight_data, String.data_append]
  exact List.rdropWhile_concat_pos _ _ _ ((dot_cutset '.').2 rfl)

theorem TrimRight_all_dots (n : String) (h : ∀ c ∈ n.data, c = '.') : TrimRight n "." = "" := by
  apply String.ext
  rw [TrimRight_data]
  exact List.rdropWhile_eq_nil_iff.2 (fun x hx => (dot_cutset x).2 (h x hx))

/-- C20: the lookup key `TrimRight n "."` that `withHosts`, `withFakeIP` and
`withMapping` derive from a queried name `n` is `n` without its trailing dots:
it does not end with a dot, `n` is the key followed by dots only, stripping is
idempotent, `n` and `n` followed by a dot give the same key, and a name made
only of dots gives the empty key. -/
theorem TrimRight_key (n : String) :
    (TrimRight n ".").data.getLast? ≠ some '.' ∧
    (∃ k : Nat, n = TrimRight n "." ++ String.mk (List.replicate k '.')) ∧
    TrimRight (TrimRight n ".") "." = TrimRight n "." ∧
    TrimRight (n ++ ".") "." = TrimRight n "." ∧
    ((∀ c ∈ n.data, c = '.') → TrimRight n "." = "") ∧
    TrimRight "example.com." "." = "example.com" ∧
    TrimRight "example.com" "." = "example.com" ∧
    TrimRight "a.b.." "." = "a.b" ∧
    TrimRight "..." "." = "" :=
  ⟨TrimRight_not_dot_last n, TrimRight_suffix n, TrimRight_idem n, TrimRight_append_dot n,
    TrimRight_all_dots n, by decide, by decide, by decide, by decide⟩

end Key

/-! ## Message or error -/

section MessageOrError

variable {σ : Type}

theorem withFakeIP_cases (ttl : Nat) (pool : Pool σ) (next : handler σ) (w : World σ)
    (r : Msg) (q : Question) (qs : List Question) (hq : r.Question = q :: qs) :
    withFakeIP ttl pool next w r = next w r ∨
    ∃ (msg : Msg) (w1 : World σ), ∀ next2 : handler σ,
      withFakeIP ttl pool next2 w r = (Result.ret (some msg) none, w1) := by
  cases hskip : pool.ShouldSkipped (TrimRight q.Name ".") with
  | true => exact Or.inl (withFakeIP_skipped ttl pool next w r q qs hq hskip)
  | false =>
    by_cases hA : q.Qtype = TypeA
    · exact Or.inr ⟨_, _, fun next2 => withFakeIP_hit ttl pool next2 w r q qs hq hA hskip⟩
    · by_cases ht : q.Qtype = TypeAAAA ∨ q.Qtype = TypeSVCB ∨ q.Qtype = TypeHTTPS
      · exact Or.inr ⟨_, _, fun next2 => withFakeIP_empty ttl pool next2 w r q qs hq hskip ht⟩
      · exact Or.inl (withFakeIP_other_type ttl pool next w r q qs hq
          ⟨hA, fun h => ht (Or.inl h), fun h => ht (Or.inr (Or.inl h)),
            fun h => ht (Or.inr (Or.inr h))⟩)

theorem withHosts_cases2 (hosts : DomainTrie) (mapping : Option LruCache) (next : handler σ)
    (w : World σ) (r : Msg) (q : Question) (qs : List Question) (hq : r.Question = q :: qs) :
    withHosts hosts mapping next w r = next w r ∨
    ∃ (msg : Msg) (w1 : World σ), ∀ next2 : handler σ,
      withHosts hosts mapping next2 w r = (Result.ret (some msg) none, w1) := by
  rcases withHosts_cases hosts mapping next w r q qs hq with h | ⟨ip, hs, ht⟩
  · exact Or.inl h
  · exact Or.inr ⟨_, _, fun next2 => withHosts_hit hosts mapping next2 w r q qs ip hq hs ht⟩

/-- What `withMapping` returns, by what `next` returns. -/
theorem withMapping_cases (mapping : Option LruCache) (next : handler σ) (w : World σ)
    (r : Msg) (q : Question) (qs : List Question) (hq : r.Question = q :: qs) :
    withMapping mapping next w r = next w r ∨
    (withMapping mapping next w r).1 = Result.panic ∧
      ((next w r).1 = Result.panic ∨ (next w r).1 = Result.ret none none ∨
        (mapping = none ∧ ∃ msg, (next w r).1 = Result.ret (some msg) none)) ∨
    (∃ m e, (next w r).1 = Result.ret m (some e) ∧
      (withMapping mapping next w r).1 = Result.ret none (some e)) ∨
    (∃ msg, (next w r).1 = Result.ret (some msg) none ∧
      (withMapping mapping next w r).1 = Result.ret (some msg) none) := by
  by_cases ht : q.Qtype = TypeA ∨ q.Qtype = TypeAAAA
  · have h : isIPRequest q = true := (isIPRequest_iff q).2 ht
    rcases hn : next w r with ⟨res, w1⟩
    cases res with
    | panic => exact Or.inr (Or.inl ⟨by simp [withMapping, hq, h, hn], Or.inl rfl⟩)
    | ret m e =>
      cases e with
      | some e =>
        exact Or.inr (Or.inr (Or.inl ⟨m, e, rfl, by simp [withMapping, hq, h, hn]⟩))
      | none =>
        cases m with
        | none =>
          exact Or.inr (Or.inl ⟨by simp [withMapping, hq, h, hn], Or.inr (Or.inl rfl)⟩)
        | some msg =>
          cases hl : mappingLoop mapping (TrimRight q.Name ".") msg.Answer w1 with
          | none =>
            refine Or.inr (Or.inl ⟨by simp [withMapping, hq, h, hn, hl],
              Or.inr (Or.inr ⟨?_, msg, rfl⟩)⟩)
            cases mapping with
            | none => rfl
            | some c => rw [mappingLoop_some] at hl; cases hl
          | some w2 =>
            exact Or.inr (Or.inr (Or.inr ⟨msg, rfl, by simp [withMapping, hq, h, hn, hl]⟩))
  · exact Or.inl (withMapping_not_ip mapping next w r q qs hq ht)

/-- C17: for a request with at least one question and a `next` that does not
return both no message and no error on it, none of `withHosts`, `withFakeIP`
and `withMapping` returns both no message and no error.  Each returns an
error only if `next` returned that same error (`withHosts` and `withFakeIP`
then return exactly what `next` returned).  `withHosts` and `withFakeIP`
either yield what `next` yields or return, whatever `next` is, a message and
no error; `withMapping` returns a message and no error only if `next` returned
that message and no error. -/
theorem units_message_or_error (hosts : DomainTrie) (mapping : Option LruCache) (ttl : Nat)
    (pool : Pool σ) (next : handler σ) (w : World σ) (r : Msg) (q : Question)
    (qs : List Question) (hq : r.Question = q :: qs)
    (hnext : (next w r).1 ≠ Result.ret none none) :
    ((withHosts hosts mapping next w r).1 ≠ Result.ret none none ∧
      (∀ (m : Option Msg) (e : Error),
        (withHosts hosts mapping next w r).1 = Result.ret m (some e) →
        withHosts hosts mapping next w r = next w r) ∧
      (withHosts hosts mapping next w r = next w r ∨
        ∃ (msg : Msg) (w1 : World σ), ∀ next2 : handler σ,
          withHosts hosts mapping next2 w r = (Result.ret (some msg) none, w1))) ∧
    ((withFakeIP ttl pool next w r).1 ≠ Result.ret none none ∧
      (∀ (m : Option Msg) (e : Error),
        (withFakeIP ttl pool next w r).1 = Result.ret m (some e) →
        withFakeIP ttl pool next w r = next w r) ∧
      (withFakeIP ttl pool next w r = next w r ∨
        ∃ (msg : Msg) (w1 : World σ), ∀ next2 : handler σ,
          withFakeIP ttl pool next2 w r = (Result.ret (some msg) none, w1))) ∧
    ((withMapping mapping next w r).1 ≠ Result.ret none none ∧
      (∀ (m : Option Msg) (e : Error),
        (withMapping mapping next w r).1 = Result.ret m (some e) →
        ∃ m1 : Option Msg, (next w r).1 = Result.ret m1 (some e)) ∧
      (∀ msg : Msg, (withMapping mapping next w r).1 = Result.ret (some msg) none →
        (next w r).1 = Result.ret (some msg) none)) := by
  have hH := withHosts_cases2 hosts mapping next w r q qs hq
  have hF := withFakeIP_cases ttl pool next w r q qs hq
  have hM := withMapping_cases mapping next w r q qs hq
  refine ⟨⟨?_, ?_, hH⟩, ⟨?_, ?_, hF⟩, ?_, ?_, ?_⟩
  · rcases hH with h | ⟨msg, w1, h⟩
    · rw [h]; exact hnext
    · rw [h next]; exact fun h0 => by cases h0
  · intro m e he
    rcases hH with h | ⟨msg, w1, h⟩
    · exact h
    · rw [h next] at he; cases he
  · rcases hF with h | ⟨msg, w1, h⟩
    · rw [h]; exact hnext
    · rw [h next]; exact fun h0 => by cases h0
  · intro m e he
    rcases hF with h | ⟨msg, w1, h⟩
    · exact h
    · rw [h next] at he; cases he
  · rcases hM with h | ⟨h, -⟩ | ⟨m, e, -, h⟩ | ⟨msg, -, h⟩
    · rw [h]; exact hnext
    · rw [h]; exact fun h0 => by cases h0
    · rw [h]; exact fun h0 => by cases h0
    · rw [h]; exact fun h0 => by cases h0
  · intro m e he
    rcases hM with h | ⟨h, -⟩ | ⟨m1, e1, hn, h⟩ | ⟨msg, -, h⟩
    · rw [h] at he; exact ⟨m, he⟩
    · rw [h] at he; cases he
    · rw [h] at he; cases he; exact ⟨m1, hn⟩
    · rw [h] at he; cases he
  · intro msg hmsg
    rcases hM with h | ⟨h, -⟩ | ⟨m1, e1, -, h⟩ | ⟨msg1, hn, h⟩
    · rw [h] at hmsg; exact hmsg
    · rw [h] at hmsg; cases hmsg
    · rw [h] at hmsg; cases hmsg
    · rw [h] at hmsg; cases hmsg; exact hn

/-- Witness of C17: with a `next` that always fails with an error, on the A
query for `example.com.` the hosts unit (no entry) and the mapping unit hand
the error on, and the fake-IP unit answers itself: none returns neither
message nor error. -/
theorem units_message_or_error_witness :
    (withHosts exampleHosts (some 0) exampleNext exampleWorld
      (exampleQuery "example.com." TypeA)).1 ≠ Result.ret none none ∧
    (withFakeIP 600 examplePool exampleNext exampleWorld
      (exampleQuery "example.com." TypeA)).1 ≠ Result.ret none none ∧
    (withMapping (some 0) exampleNext exampleWorld
      (exampleQuery "example.com." TypeA)).1 ≠ Result.ret none none :=
  ⟨(units_message_or_error exampleHosts (some 0) 600 examplePool exampleNext exampleWorld
      (exampleQuery "example.com." TypeA) ⟨"example.com.", TypeA, ClassINET⟩ [] rfl
      (by decide)).1.1,
    (units_message_or_error exampleHosts (some 0) 600 examplePool exampleNext exampleWorld
      (exampleQuery "example.com." TypeA) ⟨"example.com.", TypeA, ClassINET⟩ [] rfl
      (by decide)).2.1.1,
    (units_message_or_error exampleHosts (some 0) 600 examplePool exampleNext exampleWorld
      (exampleQuery "example.com." TypeA) ⟨"example.com.", TypeA, ClassINET⟩ [] rfl
      (by decide)).2.2.1⟩

end MessageOrError

/-! ## The first question -/

section FirstQuestion

variable {σ : Type}

theorem handleMsgWithEmptyAnswer_first_question (r : Msg) (q : Question)
    (qs qs2 : List Question) (hq : r.Question = q :: qs) :
    handleMsgWithEmptyAnswer { r with Question := q :: qs2 } = handleMsgWithEmptyAnswer r := by
  simp only [handleMsgWithEmptyAnswer, Msg.SetRcode, Msg.SetReply, hq]

theorem SetRcode_first_question (m r : Msg) (q : Question) (qs qs2 : List Question)
    (hq : r.Question = q :: qs) (c : Nat) :
    m.SetRcode { r with Question := q :: qs2 } c = m.SetRcode r c := by
  simp only [Msg.SetRcode, Msg.SetReply, hq]

theorem withHosts_first_question (hosts : DomainTrie) (mapping : Option LruCache)
    (next : handler σ) (w : World σ) (r : Msg) (q : Question) (qs qs2 : List Question)
    (hq : r.Question = q :: qs)
    (hn : next w { r with Question := q :: qs2 } = next w r) :
    withHosts hosts mapping next w { r with Question := q :: qs2 } =
      withHosts hosts mapping next w r := by
  have hq2 : ({ r with Question := q :: qs2 } : Msg).Question = q :: qs2 := rfl
  by_cases ht : q.Qtype = TypeA ∨ q.Qtype = TypeAAAA
  · cases hs : hosts.Search (TrimRight q.Name ".") with
    | none =>
      rw [withHosts_miss hosts mapping next w { r with Question := q :: qs2 } q qs2 hq2 hs,
        withHosts_miss hosts mapping next w r q qs hq hs, hn]
    | some ip =>
      by_cases hit : (q.Qtype = TypeA ∧ ip.Is4 = true) ∨ q.Qtype = TypeAAAA
      · exact (withHosts_hit hosts mapping next w { r with Question := q :: qs2 } q qs2 ip hq2 hs hit).trans
          (withHosts_hit hosts mapping next w r q qs ip hq hs hit).symm
      · have hA : q.Qtype = TypeA := ht.elim id (fun h => absurd (Or.inr h) hit)
        have h4 : ip.Is4 = false := by
          cases h : ip.Is4 with
          | false => rfl
          | true => exact absurd (Or.inl ⟨hA, h⟩) hit
        rw [withHosts_A_not4 hosts mapping next w { r with Question := q :: qs2 } q qs2 ip hq2 hs hA h4,
          withHosts_A_not4 hosts mapping next w r q qs ip hq hs hA h4, hn]
  · rw [withHosts_not_ip hosts mapping next w { r with Question := q :: qs2 } q qs2 hq2 ht,
      withHosts_not_ip hosts mapping next w r q qs hq ht, hn]

theorem withFakeIP_first_question (ttl : Nat) (pool : Pool σ)
    (next : handler σ) (w : World σ) (r : Msg) (q : Question) (qs qs2 : List Question)
    (hq : r.Question = q :: qs)
    (hn : next w { r with Question := q :: qs2 } = next w r) :
    withFakeIP ttl pool next w { r with Question := q :: qs2 } = withFakeIP ttl pool next w r := by
  have hq2 : ({ r with Question := q :: qs2 } : Msg).Question = q :: qs2 := rfl
  cases hskip : pool.ShouldSkipped (TrimRight q.Name ".") with
  | true =>
    rw [withFakeIP_skipped ttl pool next w { r with Question := q :: qs2 } q qs2 hq2 hskip,
      withFakeIP_skipped ttl pool next w r q qs hq hskip, hn]
  | false =>
    by_cases hA : q.Qtype = TypeA
    · exact (withFakeIP_hit ttl pool next w { r with Question := q :: qs2 } q qs2 hq2 hA hskip).trans
        (withFakeIP_hit ttl pool next w r q qs hq hA hskip).symm
    · by_cases ht : q.Qtype = TypeAAAA ∨ q.Qtype = TypeSVCB ∨ q.Qtype = TypeHTTPS
      · rw [withFakeIP_empty ttl pool next w { r with Question := q :: qs2 } q qs2 hq2 hskip ht,
          withFakeIP_empty ttl pool next w r q qs hq hskip ht,
          handleMsgWithEmptyAnswer_first_question r q qs qs2 hq]
      · have h4 : q.Qtype ≠ TypeA ∧ q.Qtype ≠ TypeAAAA ∧ q.Qtype ≠ TypeSVCB ∧
            q.Qtype ≠ TypeHTTPS :=
          ⟨hA, fun h => ht (Or.inl h), fun h => ht (Or.inr (Or.inl h)),
            fun h => ht (Or.inr (Or.inr h))⟩
        rw [withFakeIP_other_type ttl pool next w { r with Question := q :: qs2 } q qs2 hq2 h4,
          withFakeIP_other_type ttl pool next w r q qs hq h4, hn]

theorem withMapping_first_question (mapping : Option LruCache)
    (next : handler σ) (w : World σ) (r : Msg) (q : Question) (qs qs2 : List Question)
    (hq : r.Question = q :: qs)
    (hn : next w { r with Question := q :: qs2 } = next w r) :
    withMapping mapping next w { r with Question := q :: qs2 } = withMapping mapping next w r := by
  simp only [withMapping, hq, hn]

theorem withResolver_first_question (resolver : Resolver σ) (w : World σ) (r : Msg)
    (q : Question) (qs qs2 : List Question) (hq : r.Question = q :: qs)
    (hex : resolver.ExchangeContext { r with Question := q :: qs2 } (w.now, w.ext) =
      resolver.ExchangeContext r (w.now, w.ext)) :
    withResolver resolver w { r with Question := q :: qs2 } = withResolver resolver w r := by
  have hq2 : ({ r with Question := q :: qs2 } : Msg).Question = q :: qs2 := rfl
  by_cases hv : resolver.ipv6 = true ∨ q.Qtype ≠ TypeAAAA
  · rcases hr : resolver.ExchangeContext r (w.now, w.ext) with ⟨⟨m, e⟩, now1, ext1⟩
    have hr2 := hex.trans hr
    cases e with
    | some e =>
      exact (withResolver_err resolver w { r with Question := q :: qs2 } q qs2 m e now1 ext1 hq2 hv hr2).trans
        (withResolver_err resolver w r q qs m e now1 ext1 hq hv hr).symm
    | none =>
      cases m with
      | none =>
        exact (withResolver_nil resolver w { r with Question := q :: qs2 } q qs2 now1 ext1 hq2 hv hr2).trans
          (withResolver_nil resolver w r q qs now1 ext1 hq hv hr).symm
      | some m =>
        rw [withResolver_ok resolver w { r with Question := q :: qs2 } q qs2 m now1 ext1 hq2 hv hr2,
          withResolver_ok resolver w r q qs m now1 ext1 hq hv hr,
          SetRcode_first_question m r q qs qs2 hq]
  · have h6 : resolver.ipv6 = false := by
      cases h : resolver.ipv6 with
      | false => rfl
      | true => exact absurd (Or.inl h) hv
    have hA : q.Qtype = TypeAAAA := by
      by_contra h; exact hv (Or.inr h)
    rw [withResolver_no6 resolver w { r with Question := q :: qs2 } q qs2 hq2 h6 hA,
      withResolver_no6 resolver w r q qs hq h6 hA,
      handleMsgWithEmptyAnswer_first_question r q qs qs2 hq]

theorem withResolver_panic (resolver : Resolver σ) (w : World σ) (r : Msg)
    (q : Question) (qs : List Question) (hq : r.Question = q :: qs)
    (hp : (withResolver resolver w r).1 = Result.panic) :
    (resolver.ExchangeContext r (w.now, w.ext)).1 = (none, none) := by
  by_cases hv : resolver.ipv6 = true ∨ q.Qtype ≠ TypeAAAA
  · rcases hr : resolver.ExchangeContext r (w.now, w.ext) with ⟨⟨m, e⟩, now1, ext1⟩
    cases e with
    | some e => rw [withResolver_err resolver w r q qs m e now1 ext1 hq hv hr] at hp; cases hp
    | none =>
      cases m with
      | none => rfl
      | some m => rw [withResolver_ok resolver w r q qs m now1 ext1 hq hv hr] at hp; cases hp
  · have h6 : resolver.ipv6 = false := by
      cases h : resolver.ipv6 with
      | false => rfl
      | true => exact absurd (Or.inl h) hv
    have hA : q.Qtype = TypeAAAA := by
      by_contra h; exact hv (Or.inr h)
    rw [withResolver_no6 resolver w r q qs hq h6 hA] at hp; cases hp

theorem NewHandler_no_question (ttl : Nat) (resolver : Resolver σ) (mapper : ResolverEnhancer σ)
    (w : World σ) (r : Msg) (hq : r.Question = []) :
    (NewHandler ttl resolver mapper w r).1 = Result.panic := by
  rw [NewHandler_eq_nested]
  cases resolver.hosts <;> cases mapper.mode <;>
    simp [withHosts, withFakeIP, withMapping, withResolver, hq]

/-- C18, as the code has it.  On a request with no question each handler
fails at its read of the first question, before calling anything else (the
terminal handler after its write of the kind Raw), so a pipeline built by
`NewHandler` produces no response.  On a request with at least one question
no handler fails at that read: `withHosts` and `withFakeIP` panic only if
`next` does, `withMapping` only if `next` does or returns neither message nor
error or the cache is nil, `withResolver` only if the exchange returns
neither message nor error.  Each handler reads the first question only: two
requests that differ only in the questions after the first get the same
result from it, provided `next` (for the terminal handler: the upstream
exchange), which receives the whole request, treats them alike. -/
theorem handlers_read_first_question (ttl : Nat) (hosts : DomainTrie)
    (mapping : Option LruCache) (pool : Pool σ) (resolver : Resolver σ)
    (mapper : ResolverEnhancer σ) (next : handler σ) (w : World σ) (r : Msg) :
    (r.Question = [] →
      withHosts hosts mapping next w r = (Result.panic, w) ∧
      withMapping mapping next w r = (Result.panic, w) ∧
      withFakeIP ttl pool next w r = (Result.panic, w) ∧
      withResolver resolver w r = (Result.panic, w.SetType DNSType.DNSTypeRaw) ∧
      (NewHandler ttl resolver mapper w r).1 = Result.panic) ∧
    (∀ (q : Question) (qs : List Question), r.Question = q :: qs →
      ((withHosts hosts mapping next w r).1 = Result.panic → (next w r).1 = Result.panic) ∧
      ((withFakeIP ttl pool next w r).1 = Result.panic → (next w r).1 = Result.panic) ∧
      ((withMapping mapping next w r).1 = Result.panic →
        (next w r).1 = Result.panic ∨ (next w r).1 = Result.ret none none ∨
          (mapping = none ∧ ∃ msg, (next w r).1 = Result.ret (some msg) none)) ∧
      ((withResolver resolver w r).1 = Result.panic →
        (resolver.ExchangeContext r (w.now, w.ext)).1 = (none, none)) ∧
      ∀ qs2 : List Question,
        (next w { r with Question := q :: qs2 } = next w r →
          withHosts hosts mapping next w { r with Question := q :: qs2 } =
            withHosts hosts mapping next w r) ∧
        (next w { r with Question := q :: qs2 } = next w r →
          withFakeIP ttl pool next w { r with Question := q :: qs2 } =
            withFakeIP ttl pool next w r) ∧
        (next w { r with Question := q :: qs2 } = next w r →
          withMapping mapping next w { r with Question := q :: qs2 } =
            withMapping mapping next w r) ∧
        (resolver.ExchangeContext { r with Question := q :: qs2 } (w.now, w.ext) =
            resolver.ExchangeContext r (w.now, w.ext) →
          withResolver resolver w { r with Question := q :: qs2 } =
            withResolver resolver w r)) := by
  refine ⟨fun h0 => ⟨?_, ?_, ?_, ?_, NewHandler_no_question ttl resolver mapper w r h0⟩,
    fun q qs hq => ⟨fun hp => ?_, fun hp => ?_, fun hp => ?_,
      withResolver_panic resolver w r q qs hq, fun qs2 =>
      ⟨withHosts_first_question hosts mapping next w r q qs qs2 hq,
        withFakeIP_first_question ttl pool next w r q qs qs2 hq,
        withMapping_first_question mapping next w r q qs qs2 hq,
        withResolver_first_question resolver w r q qs qs2 hq⟩⟩⟩
  · simp [withHosts, h0]
  · simp [withMapping, h0]
  · simp [withFakeIP, h0]
  · simp [withResolver, h0]
  · rcases withHosts_cases2 hosts mapping next w r q qs hq with h | ⟨msg, w1, h⟩
    · rw [h] at hp; exact hp
    · rw [h next] at hp; cases hp
  · rcases withFakeIP_cases ttl pool next w r q qs hq with h | ⟨msg, w1, h⟩
    · rw [h] at hp; exact hp
    · rw [h next] at hp; cases hp
  · rcases withMapping_cases mapping next w r q qs hq with
      h | ⟨-, h⟩ | ⟨m, e, -, h⟩ | ⟨msg, -, h⟩
    · rw [h] at hp; exact Or.inl hp
    · exact h
    · rw [h] at hp; cases hp
    · rw [h] at hp; cases hp

/-- Witness of C18 as amended: a request with no question makes the FakeIP
pipeline with a host table panic, and the hosts unit panic with the world as
it was; the A queries for `example.com.` with one and with two questions get
the same empty-table treatment from the hosts unit. -/
theorem handlers_read_first_question_witness :
    (NewHandler 600 (exampleResolver (some exampleHosts)) (exampleMapper DNSMode.DNSFakeIP)
      exampleWorld { Id := 7 }).1 = Result.panic ∧
    withHosts exampleHosts (some 0) exampleNext exampleWorld { Id := 7 } =
      (Result.panic, exampleWorld) ∧
    withHosts exampleHosts (some 0) exampleNext exampleWorld
        (exampleQuery2 "example.com." TypeA) =
      withHosts exampleHosts (some 0) exampleNext exampleWorld
        (exampleQuery "example.com." TypeA) :=
  ⟨((handlers_read_first_question 600 exampleHosts (some 0) examplePool
      (exampleResolver (some exampleHosts)) (exampleMapper DNSMode.DNSFakeIP) exampleNext
      exampleWorld { Id := 7 }).1 rfl).2.2.2.2,
    ((handlers_read_first_question 600 exampleHosts (some 0) examplePool
      (exampleResolver (some exampleHosts)) (exampleMapper DNSMode.DNSFakeIP) exampleNext
      exampleWorld { Id := 7 }).1 rfl).1,
    (((handlers_read_first_question 600 exampleHosts (some 0) examplePool
      (exampleResolver (some exampleHosts)) (exampleMapper DNSMode.DNSFakeIP) exampleNext
      exampleWorld (exampleQuery "example.com." TypeA)).2
        ⟨"example.com.", TypeA, ClassINET⟩ [] rfl).2.2.2.2
        [{ Name := "other.", Qtype := TypeA, Qclass := ClassINET }]).1 rfl⟩

/-- Counterexample to C18 as stated: the two requests have the same first
question, the A query for `example.com.`, and the second has one more
question; the terminal handler hands each whole request to the upstream, which
answers the first and refuses the second, so its results differ. -/
theorem handlers_read_first_question_counterexample :
    (exampleQuery2 "example.com." TypeA).Question.head? =
      (exampleQuery "example.com." TypeA).Question.head? ∧
    exampleQuery2 "example.com." TypeA =
      { exampleQuery "example.com." TypeA with
        Question := [{ Name := "example.com.", Qtype := TypeA, Qclass := ClassINET },
          { Name := "other.", Qtype := TypeA, Qclass := ClassINET }] } ∧
    (withResolver exampleResolverStrict exampleWorld (exampleQuery "example.com." TypeA)).1 =
      Result.ret (some {
        Id := 7, Response := true, RecursionDesired := true, Authoritative := true,
        Question := [{ Name := "example.com.", Qtype := 1, Qclass := 1 }],
        Answer := [RR.A { Name := "upstream.", Rrtype := 1, Class := 1, Ttl := 300 }
          [10, 0, 0, 1]] }) none ∧
    (withResolver exampleResolverStrict exampleWorld (exampleQuery2 "example.com." TypeA)).1 =
      Result.ret none (some "format error") ∧
    (NewHandler 600 exampleResolverStrict (exampleMapper DNSMode.DNSNormal) exampleWorld
        (exampleQuery2 "example.com." TypeA)).1 ≠
      (NewHandler 600 exampleResolverStrict (exampleMapper DNSMode.DNSNormal) exampleWorld
        (exampleQuery "example.com." TypeA)).1 :=
  ⟨rfl, rfl, by decide, by decide, by decide⟩

end FirstQuestion

/-! ## Writes of the resolution kind -/

section KindWrites

variable {σ : Type}

/-- The loop of `withMapping` does not write the resolution kind. -/
theorem mappingLoop_typeWrites (mapping : Option LruCache) (host : String) (answers : List RR) :
    ∀ w w2 : World σ, mappingLoop mapping host answers w = some w2 →
      w2.typeWrites = w.typeWrites := by
  cases mapping with
  | some c =>
    intro w w2 h
    rw [mappingLoop_some] at h
    cases h
    rfl
  | none =>
    induction answers with
    | nil => intro w w2 h; cases h; rfl
    | cons ans rest ih =>
      intro w w2 h
      cases ans with
      | A hdr a => simp [mappingLoop, answerAddr] at h
      | AAAA hdr a => simp [mappingLoop, answerAddr] at h
      | other hdr d =>
        simp only [mappingLoop, answerAddr] at h
        exact ih w w2 h

theorem withMapping_typeWrites (mapping : Option LruCache) (next : handler σ) (w : World σ)
    (r : Msg) (q : Question) (qs : List Question) (hq : r.Question = q :: qs) :
    (withMapping mapping next w r).2.typeWrites = (next w r).2.typeWrites := by
  by_cases ht : q.Qtype = TypeA ∨ q.Qtype = TypeAAAA
  · have h : isIPRequest q = true := (isIPRequest_iff q).2 ht
    rcases hn : next w r with ⟨res, w1⟩
    cases res with
    | panic => simp [withMapping, hq, h, hn]
    | ret m e =>
      cases e with
      | some e => simp [withMapping, hq, h, hn]
      | none =>
        cases m with
        | none => simp [withMapping, hq, h, hn]
        | some msg =>
          cases hl : mappingLoop mapping (TrimRight q.Name ".") msg.Answer w1 with
          | none => simp [withMapping, hq, h, hn, hl]
          | some w2 =>
            simp only [withMapping, hq, h, hn, hl]
            exact mappingLoop_typeWrites mapping _ _ w1 w2 hl
  · rw [withMapping_not_ip mapping next w r q qs hq ht]

/-- The writes of the resolution kind that one call of a pipeline built by
`NewHandler` makes on a request with at least one question: exactly one, of
Host, FakeIP or Raw, except when the fake-IP middleware returns its empty
answer (mode FakeIP, name not skipped, type AAAA, SVCB or HTTPS), where it
makes none. -/
theorem NewHandler_kind_writes (ttl : Nat) (resolver : Resolver σ) (mapper : ResolverEnhancer σ)
    (w : World σ) (r : Msg) (q : Question) (qs : List Question) (hq : r.Question = q :: qs) :
    (NewHandler ttl resolver mapper w r).2.typeWrites = w.typeWrites ++ [DNSType.DNSTypeHost] ∨
    (NewHandler ttl resolver mapper w r).2.typeWrites = w.typeWrites ++ [DNSType.DNSTypeFakeIP] ∨
    (NewHandler ttl resolver mapper w r).2.typeWrites = w.typeWrites ++ [DNSType.DNSTypeRaw] ∨
    ((NewHandler ttl resolver mapper w r).2.typeWrites = w.typeWrites ∧
      mapper.mode = DNSMode.DNSFakeIP ∧
      mapper.fakePool.ShouldSkipped (TrimRight q.Name ".") = false ∧
      (q.Qtype = TypeAAAA ∨ q.Qtype = TypeSVCB ∨ q.Qtype = TypeHTTPS) ∧
      (NewHandler ttl resolver mapper w r).1 =
        Result.ret (some (handleMsgWithEmptyAnswer r)) none) := by
  have hraw : ((if mapper.mode ≠ DNSMode.DNSNormal then withMapping mapper.mapping else id)
      (withResolver resolver) w r).2.typeWrites = w.typeWrites ++ [DNSType.DNSTypeRaw] := by
    split
    · rw [withMapping_typeWrites mapper.mapping _ w r q qs hq]
      exact (withResolver_logs resolver w r).2.1
    · exact (withResolver_logs resolver w r).2.1
  generalize hbelow : (if mapper.mode ≠ DNSMode.DNSNormal then withMapping mapper.mapping else id)
      (withResolver resolver) = below at hraw
  have hinner : ∀ res : Result × World σ,
      res = (if mapper.mode = DNSMode.DNSFakeIP then withFakeIP ttl mapper.fakePool else id)
        below w r →
      res.2.typeWrites = w.typeWrites ++ [DNSType.DNSTypeFakeIP] ∨
      res.2.typeWrites = w.typeWrites ++ [DNSType.DNSTypeRaw] ∨
      (res.2.typeWrites = w.typeWrites ∧ mapper.mode = DNSMode.DNSFakeIP ∧
        mapper.fakePool.ShouldSkipped (TrimRight q.Name ".") = false ∧
        (q.Qtype = TypeAAAA ∨ q.Qtype = TypeSVCB ∨ q.Qtype = TypeHTTPS) ∧
        res.1 = Result.ret (some (handleMsgWithEmptyAnswer r)) none) := by
    intro res hres
    by_cases hm : mapper.mode = DNSMode.DNSFakeIP
    · rw [if_pos hm] at hres
      cases hskip : mapper.fakePool.ShouldSkipped (TrimRight q.Name ".") with
      | true =>
        rw [withFakeIP_skipped ttl mapper.fakePool below w r q qs hq hskip] at hres
        rw [hres]; exact Or.inr (Or.inl hraw)
      | false =>
        by_cases hA : q.Qtype = TypeA
        · rw [withFakeIP_hit ttl mapper.fakePool below w r q qs hq hA hskip] at hres
          rw [hres]; exact Or.inl rfl
        · by_cases ht : q.Qtype = TypeAAAA ∨ q.Qtype = TypeSVCB ∨ q.Qtype = TypeHTTPS
          · rw [withFakeIP_empty ttl mapper.fakePool below w r q qs hq hskip ht] at hres
            rw [hres]; exact Or.inr (Or.inr ⟨rfl, hm, rfl, ht, rfl⟩)
          · rw [withFakeIP_other_type ttl mapper.fakePool below w r q qs hq
              ⟨hA, fun h => ht (Or.inl h), fun h => ht (Or.inr (Or.inl h)),
                fun h => ht (Or.inr (Or.inr h))⟩] at hres
            rw [hres]; exact Or.inr (Or.inl hraw)
    · rw [if_neg hm] at hres
      rw [hres]; exact Or.inr (Or.inl hraw)
  have hN : NewHandler ttl resolver mapper w r =
      (match resolver.hosts with
        | some hosts => withHosts hosts mapper.mapping
        | none => id)
        ((if mapper.mode = DNSMode.DNSFakeIP then withFakeIP ttl mapper.fakePool else id) below)
        w r := by
    rw [NewHandler_eq_nested, hbelow]
  cases hhosts : resolver.hosts with
  | none =>
    rw [hhosts] at hN
    exact Or.inr (hinner _ hN)
  | some hosts =>
    rw [hhosts] at hN
    rcases withHosts_cases hosts mapper.mapping
        ((if mapper.mode = DNSMode.DNSFakeIP then withFakeIP ttl mapper.fakePool else id) below)
        w r q qs hq with hpass | ⟨ip, hs, ht⟩
    · exact Or.inr (hinner _ (hN.trans hpass))
    · refine Or.inl ?_
      rw [hN]
      show (withHosts hosts mapper.mapping _ w r).2.typeWrites = _
      rw [withHosts_hit hosts mapper.mapping _ w r q qs ip hq hs ht]
      cases mapper.mapping <;> rfl

/-- C16, the code at the failing input: mode FakeIP, no host table, the AAAA
query for `example.com.`, a name the pool does not skip.  The fake-IP
middleware produces the final answer, the empty answer, and the call makes no
write of the resolution kind at all, where the claim asks for exactly one, of
FakeIP.  The A query for the same name makes the one write of FakeIP. -/
theorem NewHandler_fakeip_empty_answer_kind_unwritten :
    (exampleMapper DNSMode.DNSFakeIP).mode = DNSMode.DNSFakeIP ∧
    (exampleMapper DNSMode.DNSFakeIP).fakePool.ShouldSkipped (TrimRight "example.com." ".") =
      false ∧
    (NewHandler 600 (exampleResolver none) (exampleMapper DNSMode.DNSFakeIP) exampleWorld
      (exampleQuery "example.com." TypeAAAA)).1 =
      Result.ret (some {
        Id := 7, Response := true, RecursionDesired := true, Authoritative := true,
        RecursionAvailable := true, Rcode := 0,
        Question := [{ Name := "example.com.", Qtype := 28, Qclass := 1 }],
        Answer := [] }) none ∧
    exampleWorld.typeWrites = [] ∧
    (NewHandler 600 (exampleResolver none) (exampleMapper DNSMode.DNSFakeIP) exampleWorld
      (exampleQuery "example.com." TypeAAAA)).2.typeWrites = [] ∧
    (NewHandler 600 (exampleResolver none) (exampleMapper DNSMode.DNSFakeIP) exampleWorld
      (exampleQuery "example.com." TypeA)).2.typeWrites = [DNSType.DNSTypeFakeIP] :=
  ⟨rfl, by decide, by decide, rfl, by decide, by decide⟩

end KindWrites

end Dns
